import Mathlib

/-!
Verification of the TxSim transaction-simulation service.

This file shallow-embeds the parts of the TypeScript source that the
checked properties are about:

* the EVM-side calldata recipient extractor (`extractTransferRecipient`,
  src/services/simulator.ts),
* the EVM health probe (`anvil.ts isConnected`) and the runtime-module
  health probe (`chopsticks service isConnected`),
* the EVM event-log decoder sorting (`event-decoder.ts decodeLogs`),
* the EVM error decoder (`error-decoder.ts decodeEVMError`),
* the balance snapshotters (EVM `captureBalances` and the wasm
  `wasm-balance-tracker.ts captureBalances`),
* the state-impact builders (`state-impact.ts buildStateImpactReport`
  and the wasm `buildStateFromEvents` of simulator-wasm.ts),
* the two simulation engines (`executeSimulation` of simulator.ts and
  `executeWasmSimulation` of simulator-wasm.ts) as functions over an
  explicit world of external-call outcomes.

JavaScript Maps are embedded as insertion-ordered association lists,
JS exceptions as `Except String`, and external library calls (ethers
ABI decoding, ethers address validation, log parsing against the event
catalogue) as oracle function parameters, so every theorem quantifies
over their behaviour.
-/

namespace TxSim

/-- Lowercasing used by the source for address canonicalisation
(JS `String.prototype.toLowerCase` on ASCII strings). -/
def strLower (s : String) : String := String.mk (s.data.map Char.toLower)

/-- JS `String.prototype.slice(a, b)` for non-negative indices:
characters in positions `[a, b)`. -/
def jsSlice (s : String) (a b : Nat) : String :=
  String.mk ((s.data.drop a).take (b - a))

/-- JS truthiness for an optional string argument (`null`, `undefined`
and the empty string are falsy). -/
def jsStrTruthy : Option String → Bool
  | none => false
  | some s => s ≠ ""

/-- Decimal-digit test. -/
def isDigitCh (c : Char) : Bool := c.isDigit

/-- Hex-digit test (both cases), as in the `[a-fA-F0-9]` character class. -/
def isHexDigitCh (c : Char) : Bool :=
  c.isDigit || (Char.ofNat 97 ≤ c && c ≤ Char.ofNat 102) ||
    (Char.ofNat 65 ≤ c && c ≤ Char.ofNat 70)

/-- Lowercase-hex test (digits and the letters a..f). -/
def isLowerHexCh (c : Char) : Bool :=
  c.isDigit || (Char.ofNat 97 ≤ c && c ≤ Char.ofNat 102)

/-- Association-list lookup: JS `Map.prototype.get` (first binding wins;
a JS Map holds each key once and our `alSet` keeps it that way). -/
def alGet? {K V : Type} [DecidableEq K] (m : List (K × V)) (k : K) :
    Option V :=
  match m with
  | [] => none
  | (k1, v) :: rest => if k1 = k then some v else alGet? rest k

/-- Lookup with a default, JS `map.get(k) || d` for non-falsy defaults. -/
def alGetD {K V : Type} [DecidableEq K] (m : List (K × V)) (k : K)
    (d : V) : V :=
  (alGet? m k).getD d

/-- JS `Map.prototype.set`: replace in place when the key is present,
append otherwise (insertion order preserved). -/
def alSet {K V : Type} [DecidableEq K] (m : List (K × V)) (k : K) (v : V) :
    List (K × V) :=
  match m with
  | [] => [(k, v)]
  | (k1, v1) :: rest =>
      if k1 = k then (k, v) :: rest else (k1, v1) :: alSet rest k v

/-- Key list of an association list (JS `map.keys()`, insertion order). -/
def alKeys {K V : Type} : List (K × V) → List K
  | [] => []
  | (k, _) :: rest => k :: alKeys rest

/-- JS `Set.prototype.add` on a set embedded as a duplicate-free list
in insertion order. -/
def setAdd (l : List String) (x : String) : List String :=
  if x ∈ l then l else l ++ [x]

/-- JS `Set.prototype.has`. -/
def setHas (l : List String) (x : String) : Bool := x ∈ l

/-!
## Calldata recipient extraction (kind A)

`extractTransferRecipient` of src/services/simulator.ts. The call
`ethers.isAddress(recipient)` is a library function; it is passed in as
the oracle `isAddr`, so the theorems hold for every address validator.
-/

/-- `extractTransferRecipient(data?: string)` of simulator.ts:
selector test on the lowercased first 10 characters, length gates
`data.length >= 74` (transfer) and `data.length >= 138` (transferFrom),
recipient slices `data.slice(34, 74)` resp. `data.slice(98, 138)`,
validated by the `isAddr` oracle.  When validation of a matched
transfer selector fails, the source falls through past the
transferFrom branch (whose selector test then fails) and returns null. -/
def extractTransferRecipient (isAddr : String → Bool)
    (data : Option String) : Option String :=
  match data with
  | none => none
  | some d =>
      if !jsStrTruthy (some d) || d.length < 10 then none
      else if strLower (jsSlice d 0 10) = "0xa9059cbb" &&
          decide (74 ≤ d.length) && isAddr ("0x" ++ jsSlice d 34 74) then
        some ("0x" ++ jsSlice d 34 74)
      else if strLower (jsSlice d 0 10) = "0x23b872dd" &&
          decide (138 ≤ d.length) && isAddr ("0x" ++ jsSlice d 98 138) then
        some ("0x" ++ jsSlice d 98 138)
      else none

/-- The extraction rule as the claim words it (refinement reference,
NOT translated from the source): the payload after the 4-byte selector
must be at least 64 BYTES for transfer and at least 96 BYTES for
transferFrom.  A hex string of length `n` characters carries
`(n - 10) / 2` payload bytes after the `0x` prefix and the selector. -/
def claimExtractRecipient (isAddr : String → Bool)
    (data : Option String) : Option String :=
  match data with
  | none => none
  | some d =>
      if d.length < 10 then none
      else if strLower (jsSlice d 0 10) = "0xa9059cbb" &&
          decide (64 ≤ (d.length - 10) / 2) &&
          isAddr ("0x" ++ jsSlice d 34 74) then
        some ("0x" ++ jsSlice d 34 74)
      else if strLower (jsSlice d 0 10) = "0x23b872dd" &&
          decide (96 ≤ (d.length - 10) / 2) &&
          isAddr ("0x" ++ jsSlice d 98 138) then
        some ("0x" ++ jsSlice d 98 138)
      else none

/-- A concrete model of `ethers.isAddress` restricted to lowercase
inputs: a 0x-prefixed string of 40 lowercase hex characters.  Used only
to build concrete witnesses and counterexamples. -/
def isHexAddress (s : String) : Bool :=
  s.length = 42 && jsSlice s 0 2 = "0x" && (s.data.drop 2).all isLowerHexCh

/-- Transfer calldata whose payload is exactly 32 bytes (64 hex
characters): the selector, 24 zero characters, then a 40-character
address right-aligned in the first word.  Total length 74. -/
def shortTransferData : String :=
  "0xa9059cbb" ++ "000000000000000000000000" ++
    "f39fd6e51aad88f6f4ce6ab8827279cfffb92266"

/-!
## Health probes (C10)

`isConnected` of services/anvil.ts and of the chopsticks service.
The probe outcome of a connected backend is an `Except`: `.ok` when the
RPC read resolves and `.error` when it throws.  `none` models a client
on which `connect()` was never called (`provider` / `api` still null).
-/

/-- anvil.ts `isConnected`: `try { await this.provider?.getBlockNumber();
return true } catch { return false }`.  A null provider short-circuits
the optional chain to `undefined`, which awaits successfully. -/
def anvilIsConnected (provider : Option (Except String Nat)) : Bool :=
  match provider with
  | none => true
  | some (Except.ok _) => true
  | some (Except.error _) => false

/-- chopsticks service `isConnected`: `if (!this.api) return false;
await this.api.rpc.system.health(); return true` under a catch-all. -/
def chopsticksIsConnected (api : Option (Except String Unit)) : Bool :=
  match api with
  | none => false
  | some (Except.ok _) => true
  | some (Except.error _) => false

/-!
## Kind B data model (wasm side)
-/

/-- Token/asset metadata `{symbol, decimals}`. -/
structure TokenMeta where
  symbol : String
  decimals : Nat
deriving Repr, DecidableEq

/-- Native account balance triple of the wasm balance tracker. -/
structure WNative where
  free : Int
  reserved : Int
  frozen : Int
deriving Repr, DecidableEq

/-- `BalanceSnapshot` of wasm-balance-tracker.ts. -/
structure WSnapshot where
  native : WNative
  assets : List (Nat × Int)
deriving Repr, DecidableEq

/-- A decoded wasm event (`WasmDecodedEvent` of types/wasm.ts):
pallet, method, the stringified data record, and the record index.
The data record is an association list of field name to stringified
value. -/
structure WEvent where
  pallet : String
  method : String
  data : List (String × String)
  index : Nat
deriving Repr, DecidableEq

/-- `WasmTokenBalance` of types/wasm.ts. -/
structure WTokenBalance where
  token : String
  assetId : Option Nat
  balance : String
  decimals : Nat
  symbol : String
deriving Repr, DecidableEq

/-- `WasmBalanceChange` of types/wasm.ts. -/
structure WBalanceChange where
  token : String
  assetId : Option Nat
  before : String
  after : String
  delta : String
  decimals : Nat
  symbol : String
deriving Repr, DecidableEq

/-- `WasmAddressState` of types/wasm.ts. -/
structure WAddressState where
  address : String
  before : List WTokenBalance
  after : List WTokenBalance
  changes : List WBalanceChange
deriving Repr, DecidableEq

/-- `WasmStateImpactReport` of types/wasm.ts (`recipient` nullable). -/
structure WStateImpactReport where
  sender : WAddressState
  recipient : Option WAddressState
  otherAffected : List WAddressState
deriving Repr, DecidableEq

/-- Decimal digits to a natural number. -/
def digitsToNat (cs : List Char) : Nat :=
  cs.foldl (fun n c => 10 * n + (c.toNat - 48)) 0

/-- JS `BigInt(string)` on decimal strings: empty string is 0, an
optional leading minus sign, otherwise every character must be a
decimal digit (anything else throws, modelled as `none`). -/
def jsBigInt (s : String) : Option Int :=
  match s.data with
  | [] => some 0
  | c :: cs =>
      if c = Char.ofNat 45 then
        if cs ≠ [] && cs.all isDigitCh then
          some (-(Int.ofNat (digitsToNat cs)))
        else none
      else if (c :: cs).all isDigitCh then
        some (Int.ofNat (digitsToNat (c :: cs)))
      else none

/-- `s.replace(/,/g, "")`. -/
def stripCommas (s : String) : String :=
  String.mk (s.data.filter (fun c => c ≠ Char.ofNat 44))

/-- `BigInt(x.toString().replace(/,/g, ""))` — the amount parsing of
`buildStateFromEvents`. -/
def parseAmount (s : String) : Option Int := jsBigInt (stripCommas s)

/-- The branch taken by the `balanceDeltas` loop of
`buildStateFromEvents` for one event: which balances event it is and
its parsed fields.  `fail` models the JS throws: `BigInt` on a
non-numeric amount, `data.amount.toString()` on a missing amount; a
missing `from`/`to`/`who` field would flow through JS as an `undefined`
map key and is modelled as the same failure. -/
inductive BalAction where
  | transfer (f t : String) (a : Int)
  | withdraw (w : String) (a : Int)
  | deposit (w : String) (a : Int)
  | skip
  | fail (msg : String)
deriving Repr, DecidableEq

/-- Classify one event the way the `balanceDeltas` loop branches:
pallet must be `balances`; `Transfer` reads `from`, `to`, `amount`;
`Withdraw` and `Deposit` read `who`, `amount`; Reserved/Unreserved and
every other pallet or method is skipped. -/
def classifyEvent (e : WEvent) : BalAction :=
  if e.pallet = "balances" then
    if e.method = "Transfer" then
      match alGet? e.data "from", alGet? e.data "to", alGet? e.data "amount" with
      | some f, some t, some amt =>
          match parseAmount amt with
          | some a => BalAction.transfer f t a
          | none => BalAction.fail "SyntaxError: Cannot convert to a BigInt"
      | _, _, _ => BalAction.fail "TypeError"
    else if e.method = "Withdraw" then
      match alGet? e.data "who", alGet? e.data "amount" with
      | some w, some amt =>
          match parseAmount amt with
          | some a => BalAction.withdraw w a
          | none => BalAction.fail "SyntaxError: Cannot convert to a BigInt"
      | _, _ => BalAction.fail "TypeError"
    else if e.method = "Deposit" then
      match alGet? e.data "who", alGet? e.data "amount" with
      | some w, some amt =>
          match parseAmount amt with
          | some a => BalAction.deposit w a
          | none => BalAction.fail "SyntaxError: Cannot convert to a BigInt"
      | _, _ => BalAction.fail "TypeError"
    else BalAction.skip
  else BalAction.skip

/-- One step of the `balanceDeltas` loop of `buildStateFromEvents`
(simulator-wasm.ts): balances.Transfer sets
`deltas[from] -= amount; deltas[to] += amount` (the second read sees
the first write, which matters when `from = to`), Withdraw subtracts
from `who`, Deposit adds to `who`. -/
def applyBalanceEvent (m : List (String × Int)) (e : WEvent) :
    Except String (List (String × Int)) :=
  match classifyEvent e with
  | BalAction.transfer f t a =>
      let m1 := alSet m f (alGetD m f 0 - a)
      Except.ok (alSet m1 t (alGetD m1 t 0 + a))
  | BalAction.withdraw w a => Except.ok (alSet m w (alGetD m w 0 - a))
  | BalAction.deposit w a => Except.ok (alSet m w (alGetD m w 0 + a))
  | BalAction.skip => Except.ok m
  | BalAction.fail msg => Except.error msg

/-- The full `balanceDeltas` map built by `buildStateFromEvents`. -/
def buildDeltas (events : List WEvent) :
    Except String (List (String × Int)) :=
  events.foldlM applyBalanceEvent []

/-- The net native delta of one address, as the specification words the
event reduction (per-address fold rather than a map).  Used to compare
the builder output against the spec. -/
def eventDeltaStep (addr : String) (acc : Int) (e : WEvent) :
    Except String Int :=
  match classifyEvent e with
  | BalAction.transfer f t a =>
      Except.ok (acc - (if f = addr then a else 0) +
        (if t = addr then a else 0))
  | BalAction.withdraw w a => Except.ok (acc - (if w = addr then a else 0))
  | BalAction.deposit w a => Except.ok (acc + (if w = addr then a else 0))
  | BalAction.skip => Except.ok acc
  | BalAction.fail msg => Except.error msg

/-- Per-address event reduction over a whole event list. -/
def eventDelta (events : List WEvent) (addr : String) : Except String Int :=
  events.foldlM (eventDeltaStep addr) 0

/-- Total controlled balance `free + reserved` of an optional snapshot,
0 when the address was not snapshotted. -/
def snapTotal (s : Option WSnapshot) : Int :=
  match s with
  | some sn => sn.native.free + sn.native.reserved
  | none => 0

/-- Native balance row of a wasm report. -/
def wasmNativeRow (sym : String) (dec : Nat) (bal : Int) : WTokenBalance :=
  { token := sym, assetId := none, balance := toString bal,
    decimals := dec, symbol := sym }

/-- Native change row of a wasm report. -/
def wasmChangeRow (sym : String) (dec : Nat) (b a d : Int) : WBalanceChange :=
  { token := sym, assetId := none, before := toString b, after := toString a,
    delta := toString d, decimals := dec, symbol := sym }

/-- `buildStateFromEvents` of simulator-wasm.ts.  The `assetMetadata`
argument is accepted but (as in the source) never read; native balances
use the total `free + reserved` of the BEFORE snapshot, defaulting to 0
for addresses that were not snapshotted, and `after = before + delta`
with `delta` taken from the event-reduced `balanceDeltas` map.  The
sender row is always built; the recipient row only when a recipient is
known and its delta is non-zero; every other address of the deltas map
with a non-zero delta becomes an otherAffected row. -/
def buildStateFromEvents (sender : String) (recipient : Option String)
    (events : List WEvent) (balancesBefore : List (String × WSnapshot))
    (assetMetadata : List (Nat × TokenMeta)) (nativeSymbol : String)
    (nativeDecimals : Nat) : Except String WStateImpactReport :=
  match buildDeltas events with
  | Except.error e => Except.error e
  | Except.ok deltas =>
      let _ := assetMetadata
      let senderBefore := snapTotal (alGet? balancesBefore sender)
      let senderDelta := alGetD deltas sender 0
      let senderAfter := senderBefore + senderDelta
      let senderState : WAddressState :=
        { address := sender
          before := [wasmNativeRow nativeSymbol nativeDecimals senderBefore]
          after := [wasmNativeRow nativeSymbol nativeDecimals senderAfter]
          changes :=
            if senderDelta ≠ 0 then
              [wasmChangeRow nativeSymbol nativeDecimals senderBefore
                senderAfter senderDelta]
            else [] }
      let recipientState : Option WAddressState :=
        match recipient with
        | none => none
        | some rc =>
            let rb := snapTotal (alGet? balancesBefore rc)
            let rd := alGetD deltas rc 0
            if rd ≠ 0 then
              some { address := rc
                     before := [wasmNativeRow nativeSymbol nativeDecimals rb]
                     after := [wasmNativeRow nativeSymbol nativeDecimals (rb + rd)]
                     changes := [wasmChangeRow nativeSymbol nativeDecimals rb
                       (rb + rd) rd] }
            else none
      let isRecipient : String → Bool := fun a =>
        match recipient with
        | some rc => a = rc
        | none => false
      let otherAffected : List WAddressState :=
        deltas.filterMap (fun p =>
          if p.1 = sender || isRecipient p.1 || p.2 = 0 then none
          else
            let b := snapTotal (alGet? balancesBefore p.1)
            some { address := p.1
                   before := [wasmNativeRow nativeSymbol nativeDecimals b]
                   after := [wasmNativeRow nativeSymbol nativeDecimals (b + p.2)]
                   changes := [wasmChangeRow nativeSymbol nativeDecimals b
                     (b + p.2) p.2] })
      Except.ok { sender := senderState, recipient := recipientState,
                  otherAffected := otherAffected }

/-!
## Kind A event decoder (event-decoder.ts)
-/

/-- An EVM log as consumed by event-decoder.ts. -/
structure EthLog where
  topics : List String
  data : String
  address : String
  index : Nat
deriving Repr, DecidableEq

/-- The output of `iface.parseLog` (external ethers machinery). -/
structure ParsedLog where
  name : String
  signature : String
  args : List (String × String)
deriving Repr, DecidableEq

/-- `DecodedEvent` of event-decoder.ts. -/
structure DecodedEventA where
  name : String
  contract : String
  args : List (String × String)
  signature : String
  logIndex : Nat
deriving Repr, DecidableEq

/-- `tryDecodeWithInterface` of event-decoder.ts: the ethers
`parseLog` call (and its catch-all) is the `parse1` oracle; the
function's own contributions — the lowercased contract address and
`logIndex := log.index` — are explicit. -/
def tryDecodeWith (parse1 : EthLog → Option ParsedLog) (log : EthLog) :
    Option DecodedEventA :=
  (parse1 log).map (fun p =>
    { name := p.name, contract := strLower log.address, args := p.args,
      signature := p.signature, logIndex := log.index })

/-- `decodeLog` of event-decoder.ts: guard on empty topics, then the
catalogue decode (topic0 fast path plus the linear scan over all known
interfaces), abstracted as the `parse` oracle. -/
def decodeLog (parse : EthLog → Option ParsedLog) (log : EthLog) :
    Option DecodedEventA :=
  if log.topics.isEmpty then none
  else tryDecodeWith parse log

/-- One step of the JS sort comparator `(a, b) => a.logIndex -
b.logIndex` modelled as ordered insertion. -/
def insertByIdx (e : DecodedEventA) :
    List DecodedEventA → List DecodedEventA
  | [] => [e]
  | x :: xs =>
      if e.logIndex ≤ x.logIndex then e :: x :: xs
      else x :: insertByIdx e xs

/-- Ascending sort by log index (`decoded.sort((a, b) => a.logIndex -
b.logIndex)`). -/
def sortByIdx : List DecodedEventA → List DecodedEventA
  | [] => []
  | x :: xs => insertByIdx x (sortByIdx xs)

/-- `decodeLogs` of event-decoder.ts: decode each log against the
catalogue, drop failures, sort ascending by log index. -/
def decodeLogs (parse : EthLog → Option ParsedLog) (logs : List EthLog) :
    List DecodedEventA :=
  sortByIdx (logs.filterMap (decodeLog parse))

/-- `decodeLogsWithAbi` of event-decoder.ts: try the user-supplied ABI
first (no empty-topics guard on that path), fall back to the
catalogue, sort ascending by log index. -/
def decodeLogsWithAbi (parseCustom parse : EthLog → Option ParsedLog)
    (logs : List EthLog) : List DecodedEventA :=
  sortByIdx (logs.filterMap (fun log =>
    match tryDecodeWith parseCustom log with
    | some e => some e
    | none => decodeLog parse log))

/-- Non-strict ascending order of log indices. -/
def sortedAscByIdx : List DecodedEventA → Bool
  | [] => true
  | [_] => true
  | x :: y :: rest =>
      decide (x.logIndex ≤ y.logIndex) && sortedAscByIdx (y :: rest)

/-- Strict ascending order of log indices (what the claim asserts). -/
def strictAscByIdx : List DecodedEventA → Bool
  | [] => true
  | [_] => true
  | x :: y :: rest =>
      decide (x.logIndex < y.logIndex) && strictAscByIdx (y :: rest)

/-- A decodable log at index 0. -/
def dupLog : EthLog :=
  { topics := ["0xddf252ad"], data := "0x", address := "0xC0FFEE", index := 0 }

/-- The same log shape at index 1. -/
def oneLog : EthLog :=
  { topics := ["0xddf252ad"], data := "0x", address := "0xC0FFEE", index := 1 }

/-- A parse oracle that decodes every log as a bare Transfer. -/
def constParse : EthLog → Option ParsedLog := fun _ =>
  some { name := "Transfer",
         signature := "Transfer(address,address,uint256)", args := [] }

/-!
## Kind A state-impact builder (state-impact.ts)
-/

/-- The `BalanceSnapshot` of simulator.ts / state-impact.ts: one native
balance and a map from (lowercased) token contract address to balance. -/
structure ASnapshot where
  native : Int
  tokens : List (String × Int)
deriving Repr, DecidableEq

/-- `TokenBalance` of types/index.ts (`contractAddress` null for
native). -/
structure ATokenBalance where
  token : String
  contractAddress : Option String
  balance : String
  decimals : Nat
  symbol : String
deriving Repr, DecidableEq

/-- `TokenBalanceChange` of types/index.ts. -/
structure ABalanceChange where
  token : String
  contractAddress : Option String
  before : String
  after : String
  delta : String
  decimals : Nat
  symbol : String
deriving Repr, DecidableEq

/-- `AddressState` of types/index.ts. -/
structure AAddressState where
  address : String
  before : List ATokenBalance
  after : List ATokenBalance
  changes : List ABalanceChange
deriving Repr, DecidableEq

/-- `StateImpactReport` of types/index.ts: the recipient row is a
plain (non-nullable) field, so it is present in every report. -/
structure AStateImpactReport where
  sender : AAddressState
  recipient : AAddressState
  contractsAffected : List AAddressState
deriving Repr, DecidableEq

/-- `new Set([...before.tokens.keys(), ...after.tokens.keys()])`:
deduplicated keys in first-occurrence order. -/
def unionKeys (a b : List (String × Int)) : List String :=
  (alKeys a ++ alKeys b).foldl setAdd []

/-- `buildAddressState` of state-impact.ts: native row first (18
decimals, null contract address), then one row per observed token with
metadata defaulting to UNKNOWN/18; `changes` holds only the non-zero
deltas, native first. -/
def buildAddressState (addr : String) (before after : ASnapshot)
    (tokenMetadata : List (String × TokenMeta)) (nativeSymbol : String) :
    AAddressState :=
  let natBefore : ATokenBalance :=
    { token := nativeSymbol, contractAddress := none,
      balance := toString before.native, decimals := 18,
      symbol := nativeSymbol }
  let natAfter : ATokenBalance :=
    { token := nativeSymbol, contractAddress := none,
      balance := toString after.native, decimals := 18,
      symbol := nativeSymbol }
  let nativeDelta := after.native - before.native
  let natChanges : List ABalanceChange :=
    if nativeDelta ≠ 0 then
      [{ token := nativeSymbol, contractAddress := none,
         before := toString before.native, after := toString after.native,
         delta := toString nativeDelta, decimals := 18,
         symbol := nativeSymbol }]
    else []
  let allTokens := unionKeys before.tokens after.tokens
  let mdOf : String → TokenMeta := fun t =>
    alGetD tokenMetadata t { symbol := "UNKNOWN", decimals := 18 }
  { address := strLower addr
    before := natBefore :: allTokens.map (fun t =>
      { token := (mdOf t).symbol, contractAddress := some t,
        balance := toString (alGetD before.tokens t 0),
        decimals := (mdOf t).decimals, symbol := (mdOf t).symbol })
    after := natAfter :: allTokens.map (fun t =>
      { token := (mdOf t).symbol, contractAddress := some t,
        balance := toString (alGetD after.tokens t 0),
        decimals := (mdOf t).decimals, symbol := (mdOf t).symbol })
    changes := natChanges ++ allTokens.filterMap (fun t =>
      let bb := alGetD before.tokens t 0
      let ab := alGetD after.tokens t 0
      if ab - bb ≠ 0 then
        some { token := (mdOf t).symbol, contractAddress := some t,
               before := toString bb, after := toString ab,
               delta := toString (ab - bb), decimals := (mdOf t).decimals,
               symbol := (mdOf t).symbol }
      else none) }

/-- JS `tokenRecipient || transactionTo` (null, undefined and the empty
string fall back to the transaction target). -/
def jsOrElse (o : Option String) (d : String) : String :=
  match o with
  | some r => if r = "" then d else r
  | none => d

/-- The body of the otherAffected loop of `buildStateImpactReport`
(named so theorems can speak about it): skip the exclude set, skip
addresses missing from the AFTER map, keep only states with at least
one change. -/
def affectedRow (am : List (String × ASnapshot))
    (tokenMetadata : List (String × TokenMeta)) (sym : String)
    (sL rL : String) (p : String × ASnapshot) : Option AAddressState :=
  if p.1 = sL || p.1 = rL then none
  else
    match alGet? am p.1 with
    | some aft =>
        let st := buildAddressState p.1 p.2 aft tokenMetadata sym
        if st.changes ≠ [] then some st else none
    | none => none

/-- `buildStateImpactReport` of state-impact.ts.  Token metadata reads
(`getTokenMetadata`, internally caught, never throwing) are the
`tokenMeta` oracle; the metadata map is keyed by lowercased token
address.  The sender snapshots are fetched with a non-null assertion:
a sender missing from either map crashes with a TypeError inside
`buildAddressState`, modelled as the error case.  The recipient row is
always built, from zero-default snapshots; the otherAffected loop walks
the BEFORE map, skips the sender/recipient exclude set, skips addresses
with no AFTER entry, and keeps only states with at least one change. -/
def buildStateImpactReport (tokenMeta : String → TokenMeta)
    (sender transactionTo : String) (tokenAddresses : List String)
    (balancesBefore balancesAfter : List (String × ASnapshot))
    (nativeSymbol : String) (tokenRecipient : Option String) :
    Except String AStateImpactReport :=
  let tokenMetadata : List (String × TokenMeta) :=
    tokenAddresses.foldl (fun m t => alSet m (strLower t) (tokenMeta t)) []
  match alGet? balancesBefore (strLower sender),
      alGet? balancesAfter (strLower sender) with
  | some sb, some sa =>
      let senderState :=
        buildAddressState sender sb sa tokenMetadata nativeSymbol
      let recipientAddress := jsOrElse tokenRecipient transactionTo
      let rb := alGetD balancesBefore (strLower recipientAddress)
        { native := 0, tokens := [] }
      let ra := alGetD balancesAfter (strLower recipientAddress)
        { native := 0, tokens := [] }
      let recipientState :=
        buildAddressState recipientAddress rb ra tokenMetadata nativeSymbol
      let contractsAffected := balancesBefore.filterMap
        (affectedRow balancesAfter tokenMetadata nativeSymbol
          (strLower sender) (strLower recipientAddress))
      Except.ok { sender := senderState, recipient := recipientState,
                  contractsAffected := contractsAffected }
  | _, _ => Except.error "TypeError: Cannot read properties of undefined"

/-- How many rows of a kind-A report carry a given address. -/
def reportRowCount (R : AStateImpactReport) (addr : String) : Nat :=
  (if R.sender.address = addr then 1 else 0) +
    (if R.recipient.address = addr then 1 else 0) +
    (R.contractsAffected.filter (fun st => st.address = addr)).length

/-- The claim's notion of an affected address (refinement reference,
NOT from the source): it appears in the BEFORE map or in the AFTER map,
and diffing the two snapshots — a missing side read as the zero
snapshot, missing token keys read as 0 — yields at least one non-zero
change. -/
def specHasChange (balancesBefore balancesAfter : List (String × ASnapshot))
    (addr : String) : Bool :=
  let b := alGetD balancesBefore addr { native := 0, tokens := [] }
  let a := alGetD balancesAfter addr { native := 0, tokens := [] }
  (a.native ≠ b.native) ||
    (unionKeys b.tokens a.tokens).any (fun t =>
      alGetD a.tokens t 0 ≠ alGetD b.tokens t 0)

/-!
## Balance snapshotters (C7)

`captureBalances` of simulator.ts (kind A) and of
wasm-balance-tracker.ts (kind B).  RPC reads are oracles:
`natBal`/`acct`/`assetAcct` may throw; `tokBal` models
`getTokenBalance`, which catches internally and returns 0, so it is
total.
-/

/-- `captureBalances` of simulator.ts: for each address read the
native balance — with NO try/catch, so a failed read propagates and
aborts the whole map — then each tracked token through the total
`getTokenBalance`, keying both maps by lowercased address. -/
def captureBalancesA (natBal : String → Except String Int)
    (tokBal : String → String → Int) (addresses : List String)
    (tokenAddresses : List String) :
    Except String (List (String × ASnapshot)) :=
  addresses.foldlM (fun snapshots address =>
    match natBal address with
    | Except.error e => Except.error e
    | Except.ok native =>
        Except.ok (alSet snapshots (strLower address)
          { native := native
            tokens := tokenAddresses.foldl (fun m t =>
              alSet m (strLower t) (tokBal t address)) [] })) []

/-- The account record returned by `api.query.system.account`:
stringified free/reserved and an optional frozen field. -/
structure WAccountData where
  free : String
  reserved : String
  frozen : Option String
deriving Repr, DecidableEq

/-- The zero snapshot the wasm tracker falls back to. -/
def zeroSnapW : WSnapshot :=
  { native := { free := 0, reserved := 0, frozen := 0 }, assets := [] }

/-- The per-asset value of the wasm tracker's inner loop: when the
assets pallet exposes `account`, a read failure or a parse failure is
caught to 0, a missing account is 0, a present account contributes its
parsed balance; without the pallet the asset is skipped. -/
def assetEntriesW (assetAcct : Nat → String → Except String (Option String))
    (assetsPallet : Bool) (address : String) (assetIds : List Nat) :
    List (Nat × Int) :=
  assetIds.foldl (fun m assetId =>
    if assetsPallet then
      match assetAcct assetId address with
      | Except.ok (some bal) =>
          match jsBigInt bal with
          | some b => alSet m assetId b
          | none => alSet m assetId 0
      | Except.ok none => alSet m assetId 0
      | Except.error _ => alSet m assetId 0
    else m) []

/-- One address of the wasm tracker's outer try block: read the
account, parse free/reserved (and frozen, defaulting to "0" when the
field is missing or stringifies to the empty string), read the assets.
Any failure in the account read or the native parses is the error
case. -/
def captureOneW (acct : String → Except String WAccountData)
    (assetsPallet : Bool)
    (assetAcct : Nat → String → Except String (Option String))
    (assetIds : List Nat) (address : String) : Except String WSnapshot :=
  match acct address with
  | Except.error e => Except.error e
  | Except.ok data =>
      match jsBigInt data.free with
      | none => Except.error "SyntaxError: Cannot convert to a BigInt"
      | some free =>
          match jsBigInt data.reserved with
          | none => Except.error "SyntaxError: Cannot convert to a BigInt"
          | some reserved =>
              match jsBigInt (jsOrElse data.frozen "0") with
              | none => Except.error "SyntaxError: Cannot convert to a BigInt"
              | some frozen =>
                  Except.ok
                    { native := { free := free, reserved := reserved,
                                  frozen := frozen }
                      assets := assetEntriesW assetAcct assetsPallet address
                        assetIds }

/-- The snapshot actually stored for one address: the outer catch maps
any failure to the zero snapshot (after logging a warning). -/
def captureResultW (acct : String → Except String WAccountData)
    (assetsPallet : Bool)
    (assetAcct : Nat → String → Except String (Option String))
    (assetIds : List Nat) (address : String) : WSnapshot :=
  match captureOneW acct assetsPallet assetAcct assetIds address with
  | Except.ok snap => snap
  | Except.error _ => zeroSnapW

/-- `captureBalances` of wasm-balance-tracker.ts: total — it never
raises; every requested address is stored, zeroed on failure. -/
def captureBalancesW (acct : String → Except String WAccountData)
    (assetsPallet : Bool)
    (assetAcct : Nat → String → Except String (Option String))
    (addresses : List String) (assetIds : List Nat) :
    List (String × WSnapshot) :=
  addresses.foldl (fun snapshots address =>
    alSet snapshots address
      (captureResultW acct assetsPallet assetAcct assetIds address)) []

/-- A native-balance oracle that throws for one address. -/
def natBalBoom : String → Except String Int := fun a =>
  if a = "0xdead" then Except.error "missing trie node" else Except.ok 7

/-- The per-asset value stored by the wasm tracker when the assets
pallet is available. -/
def assetValueW (assetAcct : Nat → String → Except String (Option String))
    (address : String) (assetId : Nat) : Int :=
  match assetAcct assetId address with
  | Except.ok (some bal) =>
      match jsBigInt bal with
      | some b => b
      | none => 0
  | Except.ok none => 0
  | Except.error _ => 0

/-- An account oracle that succeeds only for alice. -/
def acct0 : String → Except String WAccountData := fun a =>
  if a = "alice" then
    Except.ok { free := "100", reserved := "5", frozen := none }
  else Except.error "connection reset"

/-- An asset oracle: asset 1 present, asset 2 missing, others throw. -/
def assetAcct0 : Nat → String → Except String (Option String) :=
  fun id _ =>
    if id = 1 then Except.ok (some "42")
    else if id = 2 then Except.ok none
    else Except.error "03: Unknown"

/-!
## Kind A error decoder (error-decoder.ts)

`decodeEVMError` probes the thrown value for a hex payload, decodes
recognised selectors, and otherwise falls back to message fields.  The
ethers ABI decoding calls are the `AbiOracle` parameters; everything
else — the probing order, the selector table, the message cleanup —
is embedded from the source.
-/

/-- The fields of a thrown value that decodeEVMError probes; `none`
covers both an absent field and a non-string one (the source checks
`typeof error.data === "string"` on the direct field and truthiness on
the nested ones). -/
structure ErrObj where
  data : Option String := none
  infoErrorData : Option String := none
  infoErrorMessage : Option String := none
  errorData : Option String := none
  message : Option String := none
  reason : Option String := none
deriving Repr, DecidableEq

/-- A JS `any` input to the decoder: null/undefined, a primitive
string, or an object. -/
inductive ErrInput where
  | nullish
  | str (s : String)
  | obj (o : ErrObj)
deriving Repr, DecidableEq

/-- `DecodedError` of error-decoder.ts (`type` is one of revert,
panic, custom, unknown). -/
structure DecodedError where
  type : String
  message : String
  raw : Option String
deriving Repr, DecidableEq

/-- External ethers ABI machinery used by the decoder, as oracles:
`none` models both a throw and (for parseError) a null result. -/
structure AbiOracle where
  decUint256 : String → Option Nat
  decString : String → Option String
  parseCustomArgs : String → String → Option (List String)

/-- The `data="(0x[a-fA-F0-9]+)"` regex applied to a message: scan for
the literal prefix, take the maximal hex run, require it non-empty and
closed by a double quote (the regex cannot match a shorter run because
every prefix of the run is followed by a hex character). -/
def findDataHexIn : List Char → Option String
  | [] => none
  | c :: rest =>
      if ("data=" ++ "\"0x").data.isPrefixOf (c :: rest) then
        let tail := (c :: rest).drop 8
        let run := tail.takeWhile isHexDigitCh
        match tail.drop run.length with
        | q :: _ =>
            if run ≠ [] && q = Char.ofNat 34 then
              some ("0x" ++ String.mk run)
            else findDataHexIn rest
        | [] => findDataHexIn rest
      else findDataHexIn rest

/-- `error.message?.match(/data="(0x[a-fA-F0-9]+)"/)` capture group. -/
def jsMatchDataHex (msg : String) : Option String := findDataHexIn msg.data

/-- The pure part of `extractErrorData` on an object: `error.data`
(string, truthy), else `error.info?.error?.data` (truthy), else
`error.error?.data` (truthy), else the message regex. -/
def extractedData (o : ErrObj) : Option String :=
  if jsStrTruthy o.data then o.data
  else if jsStrTruthy o.infoErrorData then o.infoErrorData
  else if jsStrTruthy o.errorData then o.errorData
  else
    match o.message with
    | some m => jsMatchDataHex m
    | none => none

/-- `extractErrorData` of error-decoder.ts: property access on a
nullish value throws; a primitive string has none of the probed
fields. -/
def extractErrorData : ErrInput → Except String (Option String)
  | ErrInput.nullish =>
      Except.error "TypeError: Cannot read properties of null"
  | ErrInput.str _ => Except.ok none
  | ErrInput.obj o => Except.ok (extractedData o)

/-- The PANIC_CODES table of error-decoder.ts. -/
def PANIC_CODES : List (String × String) :=
  [("0x00", "Generic compiler panic"),
   ("0x01", "Assertion failed"),
   ("0x11", "Arithmetic overflow/underflow"),
   ("0x12", "Division or modulo by zero"),
   ("0x21", "Conversion to invalid enum value"),
   ("0x22", "Incorrectly encoded storage byte array"),
   ("0x31", "Pop on empty array"),
   ("0x32", "Array index out of bounds"),
   ("0x41", "Too much memory allocated"),
   ("0x51", "Called invalid internal function")]

/-- The CUSTOM_ERRORS table of error-decoder.ts. -/
def CUSTOM_ERRORS : List (String × String) :=
  [("0xe450d38c", "InsufficientBalance(address,uint256,uint256)"),
   ("0xfb8f41b2", "InsufficientAllowance(address,uint256,uint256)")]

/-- JS `s.slice(a)`. -/
def jsSliceFrom (s : String) (a : Nat) : String := String.mk (s.data.drop a)

/-- `padStart(2, "0")` on a non-empty numeral. -/
def padStart2 (s : String) : String :=
  if s.length < 2 then "0" ++ s else s

/-- `errorSig.split("(")[0]`. -/
def errorName (sig : String) : String :=
  String.mk (sig.data.takeWhile (fun c => c ≠ Char.ofNat 40))

/-- `args.join(", ")`. -/
def joinComma : List String → String
  | [] => ""
  | [x] => x
  | x :: xs => x ++ ", " ++ joinComma xs

/-- `decodePanic` of error-decoder.ts: decode the payload after the
selector as a uint256 panic code, hex-format it zero-padded to two
digits, look it up; any decode throw is caught.  `raw` is always
populated. -/
def decodePanic (oracle : AbiOracle) (data : String) : DecodedError :=
  match oracle.decUint256 ("0x" ++ jsSliceFrom data 10) with
  | some code =>
      let codeHex := "0x" ++ padStart2 (String.mk (Nat.toDigits 16 code))
      { type := "panic"
        message := "Panic: " ++
          (match alGet? PANIC_CODES codeHex with
           | some m => m
           | none => "Unknown panic code: " ++ codeHex)
        raw := some data }
  | none =>
      { type := "panic", message := "Panic: Unable to decode panic code",
        raw := some data }

/-- `decodeRevertReason` of error-decoder.ts: decode the remainder as
an ABI string; empty falls back to "Transaction reverted"; a decode
throw is caught.  `raw` is always populated. -/
def decodeRevertReason (oracle : AbiOracle) (data : String) : DecodedError :=
  match oracle.decString ("0x" ++ jsSliceFrom data 10) with
  | some reason =>
      { type := "revert"
        message := if reason = "" then "Transaction reverted" else reason
        raw := some data }
  | none =>
      { type := "revert"
        message := "Transaction reverted (unable to decode reason)"
        raw := some data }

/-- `decodeCustomError` of error-decoder.ts: unknown selectors yield
null; a known selector yields the parsed `Name(args)` or, when
parameter decoding fails (throw or null), the bare error name.  `raw`
is always populated. -/
def decodeCustomError (oracle : AbiOracle) (selector data : String) :
    Option DecodedError :=
  match alGet? CUSTOM_ERRORS selector with
  | none => none
  | some errorSig =>
      match oracle.parseCustomArgs errorSig data with
      | some args =>
          some { type := "custom"
                 message := errorName errorSig ++ "(" ++ joinComma args ++ ")"
                 raw := some data }
      | none =>
          some { type := "custom", message := errorName errorSig,
                 raw := some data }

/-- Whitespace for JS `trim`. -/
def isWsCh (c : Char) : Bool :=
  c = Char.ofNat 32 || c = Char.ofNat 9 || c = Char.ofNat 10 ||
    c = Char.ofNat 13

/-- JS `String.prototype.trim` (common whitespace). -/
def jsTrim (s : String) : String :=
  String.mk (((s.data.dropWhile isWsCh).reverse.dropWhile isWsCh).reverse)

/-- Scan for a literal pattern followed by a non-empty double-quote-
delimited capture (`([^"]+)"`). -/
def findQuoted (pat : List Char) : List Char → Option String
  | [] => none
  | c :: rest =>
      if pat.isPrefixOf (c :: rest) then
        let tail := (c :: rest).drop pat.length
        let run := tail.takeWhile (fun ch => ch ≠ Char.ofNat 34)
        match tail.drop run.length with
        | q :: _ =>
            if run ≠ [] && q = Char.ofNat 34 then some (String.mk run)
            else findQuoted pat rest
        | [] => findQuoted pat rest
      else findQuoted pat rest

/-- `cleanErrorMessage` of error-decoder.ts: extract the quoted reason
from `execution reverted: "…"` or `reason="…"`; otherwise strip a
leading `Error: `, map a bare `execution reverted` to `Transaction
reverted`, and trim. -/
def cleanErrorMessage (msg : String) : String :=
  match findQuoted ("execution reverted: " ++ "\"").data msg.data with
  | some inner => inner
  | none =>
      match findQuoted ("reason=" ++ "\"").data msg.data with
      | some inner => inner
      | none =>
          let s1 :=
            if ("Error: ").data.isPrefixOf msg.data then jsSliceFrom msg 7
            else msg
          let s2 :=
            if s1 = "execution reverted" then "Transaction reverted" else s1
          jsTrim s2

/-- The fallback record for an object input: `error.reason` (truthy),
else `error.info?.error?.message` cleaned, else `error.message`
cleaned, else the fixed unknown message.  Never carries `raw`. -/
def fallbackResult (o : ErrObj) : DecodedError :=
  if jsStrTruthy o.reason then
    { type := "revert", message := o.reason.getD "", raw := none }
  else if jsStrTruthy o.infoErrorMessage then
    { type := "unknown",
      message := cleanErrorMessage (o.infoErrorMessage.getD ""),
      raw := none }
  else if jsStrTruthy o.message then
    { type := "unknown", message := cleanErrorMessage (o.message.getD ""),
      raw := none }
  else { type := "unknown", message := "Unknown error occurred", raw := none }

/-- `parseErrorFallback` of error-decoder.ts (property access on a
nullish value throws; a primitive string has no probed fields). -/
def parseErrorFallback : ErrInput → Except String DecodedError
  | ErrInput.nullish =>
      Except.error "TypeError: Cannot read properties of null"
  | ErrInput.str _ =>
      Except.ok { type := "unknown", message := "Unknown error occurred",
                  raw := none }
  | ErrInput.obj o => Except.ok (fallbackResult o)

/-- Whether a payload's selector is one the decoder recognises. -/
def recognisedSelector (data : String) : Bool :=
  strLower (jsSlice data 0 10) = "0x4e487b71" ||
    strLower (jsSlice data 0 10) = "0x08c379a0" ||
    (alGet? CUSTOM_ERRORS (strLower (jsSlice data 0 10))).isSome

/-- `decodeEVMError` of error-decoder.ts. -/
def decodeEVMError (oracle : AbiOracle) (error : ErrInput) :
    Except String DecodedError :=
  match extractErrorData error with
  | Except.error e => Except.error e
  | Except.ok dataOpt =>
      match dataOpt with
      | some data =>
          if 10 ≤ data.length then
            if strLower (jsSlice data 0 10) = "0x4e487b71" then
              Except.ok (decodePanic oracle data)
            else if strLower (jsSlice data 0 10) = "0x08c379a0" then
              Except.ok (decodeRevertReason oracle data)
            else
              match decodeCustomError oracle (strLower (jsSlice data 0 10))
                  data with
              | some d => Except.ok d
              | none => parseErrorFallback error
          else parseErrorFallback error
      | none => parseErrorFallback error

/-- A trivial ABI oracle on which every decode attempt throws. -/
def oracle0 : AbiOracle :=
  { decUint256 := fun _ => none, decString := fun _ => none,
    parseCustomArgs := fun _ _ => none }

/-!
## Concrete inputs used by witnesses and counterexamples
-/

/-- A balances.Transfer event with a comma-separated amount. -/
def wEvT : WEvent :=
  { pallet := "balances", method := "Transfer",
    data := [("from", "alice"), ("to", "bob"), ("amount", "1,000")],
    index := 0 }

/-- A balances.Withdraw fee event. -/
def wEvW : WEvent :=
  { pallet := "balances", method := "Withdraw",
    data := [("who", "alice"), ("amount", "7")], index := 1 }

/-- A balances.Reserved event (must not contribute to deltas). -/
def wEvR : WEvent :=
  { pallet := "balances", method := "Reserved",
    data := [("who", "alice"), ("amount", "99")], index := 2 }

/-- A BEFORE snapshot map holding only the sender. -/
def wBefore0 : List (String × WSnapshot) :=
  [("alice", { native := { free := 5000, reserved := 10, frozen := 0 },
               assets := [] })]

/-- The report built from `wEvT, wEvW, wEvR` over `wBefore0`:
sender alice loses 1000 + 7, recipient bob gains 1000 starting from an
unsnapshotted (zero) before value, the Reserved event is ignored. -/
def wReport0 : WStateImpactReport :=
  { sender :=
      { address := "alice"
        before := [wasmNativeRow "DOT" 10 5010]
        after := [wasmNativeRow "DOT" 10 4003]
        changes := [wasmChangeRow "DOT" 10 5010 4003 (-1007)] }
    recipient := some
      { address := "bob"
        before := [wasmNativeRow "DOT" 10 0]
        after := [wasmNativeRow "DOT" 10 1000]
        changes := [wasmChangeRow "DOT" 10 0 1000 1000] }
    otherAffected := [] }

/-- Native balance row of a kind-A report with 18 decimals. -/
def aNatRow (sym : String) (v : Int) : ATokenBalance :=
  { token := sym, contractAddress := none, balance := toString v,
    decimals := 18, symbol := sym }

/-- A trivial token-metadata oracle. -/
def cMetaU : String → TokenMeta := fun _ => { symbol := "UNKNOWN", decimals := 18 }

/-- C6 counterexample BEFORE map: only the sender. -/
def c6Before : List (String × ASnapshot) :=
  [("0xaa", { native := 1, tokens := [] })]

/-- C6 counterexample AFTER map: the sender unchanged plus a fresh
address 0xx that only appears here. -/
def c6After : List (String × ASnapshot) :=
  [("0xaa", { native := 1, tokens := [] }),
   ("0xx", { native := 5, tokens := [] })]

/-- The report the builder produces on the C6 counterexample: 0xx is
nowhere in it, because the otherAffected loop only walks the BEFORE
map. -/
def c6Report : AStateImpactReport :=
  { sender := { address := "0xaa", before := [aNatRow "ETH" 1],
                after := [aNatRow "ETH" 1], changes := [] }
    recipient := { address := "0xbb", before := [aNatRow "ETH" 0],
                   after := [aNatRow "ETH" 0], changes := [] }
    contractsAffected := [] }

/-- C6 witness BEFORE map: the sender and one other address. -/
def c6wBefore : List (String × ASnapshot) :=
  [("0xaa", { native := 10, tokens := [] }),
   ("0xcc", { native := 3, tokens := [] })]

/-- C6 witness AFTER map: 0xcc gained one unit. -/
def c6wAfter : List (String × ASnapshot) :=
  [("0xaa", { native := 10, tokens := [] }),
   ("0xcc", { native := 4, tokens := [] })]

/-- The report on the C6 witness input: 0xcc shows up exactly once, in
otherAffected. -/
def c6wReport : AStateImpactReport :=
  { sender := { address := "0xaa", before := [aNatRow "ETH" 10],
                after := [aNatRow "ETH" 10], changes := [] }
    recipient := { address := "0xbb", before := [aNatRow "ETH" 0],
                   after := [aNatRow "ETH" 0], changes := [] }
    contractsAffected :=
      [{ address := "0xcc", before := [aNatRow "ETH" 3],
         after := [aNatRow "ETH" 4],
         changes := [{ token := "ETH", contractAddress := none,
                       before := "3", after := "4", delta := "1",
                       decimals := 18, symbol := "ETH" }] }] }

/-!
## Kind A simulation engine (simulator.ts, executeSimulation)

The engine is embedded as a function of a `WorldA` record holding the
outcome of every external call site (anvil RPCs, ethers sends, the gas
calculator), in source order.  The JS try/catch/finally is explicit:
the snapshot is taken before the try (its failure propagates with no
cleanup), the catch converts any in-try throw into a `success=false`
response, and a failing finally (revert false or throw, and then a
reset throw) overrides whatever the body produced.
-/

/-- A mined transaction receipt as consumed by the engine: status and
logs.  `tx.wait()` may resolve to null, hence the `Option ReceiptA` in
the world. -/
structure ReceiptA where
  status : Nat
  logs : List EthLog
deriving Repr, DecidableEq

/-- `GasReport` of types/index.ts (assembled by the external
`calculateGasReport`). -/
structure AGasReport where
  gasUsed : String
  gasPrice : String
  totalCostWei : String
  totalCostNative : String
  nativeSymbol : String
deriving Repr, DecidableEq

/-- The request fields the engine branches on.  `transaction.value` and
`transaction.gasLimit` only feed the send calls, whose outcomes are
world fields, so they are absorbed into those oracles. -/
structure ASimRequest where
  sender : String
  toAddr : String
  data : Option String
  trackTokens : List String
deriving Repr, DecidableEq

/-- `SimulateResponse` of types/index.ts (kind A). -/
structure ASimResponse where
  success : Bool
  stateChanges : AStateImpactReport
  events : List DecodedEventA
  gas : AGasReport
  error : Option DecodedError
deriving Repr, DecidableEq

/-- Outcomes of the kind-A engine's external call sites, in source
order: snapshot; the BEFORE capture reads (`nat1`/`tok1`); gas price;
impersonated signer; first send+wait; the mid-algorithm revert; the
historical capture reads (`nat2`/`tok2`); the re-execution send; the
AFTER capture reads (`nat3`/`tok3`); token metadata; the gas
calculator; the finally-block revert and reset.  `nativeSymbol` is the
NATIVE_SYMBOL env constant. -/
structure WorldA where
  nativeSymbol : String
  snapshotR : Except String String
  nat1 : String → Except String Int
  tok1 : String → String → Int
  gasPriceR : Except String Int
  signerR : Except String Unit
  send1R : Except String (Option ReceiptA)
  revertMidR : Except String Bool
  nat2 : String → Except String Int
  tok2 : String → String → Int
  send2R : Except String Unit
  nat3 : String → Except String Int
  tok3 : String → String → Int
  tokenMeta : String → TokenMeta
  gasReportR : Except String AGasReport
  revertFinR : Except String Bool
  resetFinR : Except String Unit

/-- The initial tracking set: lowercased sender and target, plus the
calldata-extracted recipient when present. -/
def initialTracked (isAddr : String → Bool) (req : ASimRequest) :
    List String :=
  match extractTransferRecipient isAddr req.data with
  | some r =>
      setAdd (setAdd (setAdd [] (strLower req.sender))
        (strLower req.toAddr)) (strLower r)
  | none => setAdd (setAdd [] (strLower req.sender)) (strLower req.toAddr)

/-- The decoded events of the run: `receipt?.logs ?
decodeLogs(receipt.logs) : []`. -/
def receiptEvents (parse : EthLog → Option ParsedLog) :
    Option ReceiptA → List DecodedEventA
  | some r => decodeLogs parse r.logs
  | none => []

/-- The success flag of the run: `receipt?.status === 1`. -/
def receiptSuccess : Option ReceiptA → Bool
  | some r => r.status == 1
  | none => false

/-- One truthy Transfer argument of the discovery loop: lowercase it
and collect it unless it is already tracked. -/
def addTransferAddr (tracked acc : List String) (v : Option String) :
    List String :=
  if jsStrTruthy v then
    if setHas tracked (strLower (v.getD "")) then acc
    else setAdd acc (strLower (v.getD ""))
  else acc

/-- The discovery loop over the decoded events: `from` then `to` of
every Transfer event, skipping addresses already tracked. -/
def discoverAddresses (tracked : List String)
    (events : List DecodedEventA) : List String :=
  events.foldl (fun acc e =>
    if e.name = "Transfer" then
      addTransferAddr tracked
        (addTransferAddr tracked acc (alGet? e.args "from"))
        (alGet? e.args "to")
    else acc) []

/-- The merge loop after the two-pass block: each discovered address
with a historical snapshot overwrites its BEFORE entry. -/
def mergeHistorical (before hist : List (String × ASnapshot))
    (newAddrs : List String) : List (String × ASnapshot) :=
  newAddrs.foldl (fun m addr =>
    match alGet? hist addr with
    | some snap => alSet m addr snap
    | none => m) before

/-- The two-pass block of `executeSimulation`: when new addresses were
discovered, revert to the snapshot — throwing the FATAL error when the
revert reports false — capture their historical balances, re-execute,
and merge; the result is the final BEFORE map and tracking set. -/
def twoPassA (w : WorldA) (newAddrs : List String)
    (trackTokens : List String) (before : List (String × ASnapshot))
    (tracked : List String) :
    Except String (List (String × ASnapshot) × List String) :=
  if newAddrs.isEmpty then Except.ok (before, tracked)
  else
    match w.revertMidR with
    | Except.error e => Except.error e
    | Except.ok false =>
        Except.error
          "FATAL: Failed to revert to snapshot for historical balance lookup"
    | Except.ok true =>
        match captureBalancesA w.nat2 w.tok2 newAddrs trackTokens with
        | Except.error e => Except.error e
        | Except.ok hist =>
            match w.send2R with
            | Except.error e => Except.error e
            | Except.ok _ =>
                Except.ok (mergeHistorical before hist newAddrs,
                  newAddrs.foldl setAdd tracked)

/-- The success-path response of `executeSimulation`: `error` is
present exactly when the receipt status is not 1. -/
def mkResponseA (success : Bool) (stateChanges : AStateImpactReport)
    (events : List DecodedEventA) (gas : AGasReport) : ASimResponse :=
  { success := success, stateChanges := stateChanges, events := events,
    gas := gas,
    error :=
      if success then none
      else some { type := "revert", message := "Transaction reverted",
                  raw := none } }

/-- The try block of `executeSimulation`, as the chain of its external
call sites; any error is the thrown value handed to the catch. -/
def tryBodyA (w : WorldA) (parse : EthLog → Option ParsedLog)
    (isAddr : String → Bool) (req : ASimRequest) :
    Except String ASimResponse :=
  match captureBalancesA w.nat1 w.tok1 (initialTracked isAddr req)
      req.trackTokens with
  | Except.error e => Except.error e
  | Except.ok before0 =>
      match w.gasPriceR with
      | Except.error e => Except.error e
      | Except.ok _ =>
          match w.signerR with
          | Except.error e => Except.error e
          | Except.ok _ =>
              match w.send1R with
              | Except.error e => Except.error e
              | Except.ok receipt =>
                  match twoPassA w
                      (discoverAddresses (initialTracked isAddr req)
                        (receiptEvents parse receipt))
                      req.trackTokens before0
                      (initialTracked isAddr req) with
                  | Except.error e => Except.error e
                  | Except.ok bt =>
                      match captureBalancesA w.nat3 w.tok3 bt.2
                          req.trackTokens with
                      | Except.error e => Except.error e
                      | Except.ok after0 =>
                          match buildStateImpactReport w.tokenMeta
                              req.sender req.toAddr req.trackTokens bt.1
                              after0 w.nativeSymbol
                              (extractTransferRecipient isAddr
                                req.data) with
                          | Except.error e => Except.error e
                          | Except.ok stateChanges =>
                              match w.gasReportR with
                              | Except.error e => Except.error e
                              | Except.ok gas =>
                                  Except.ok (mkResponseA
                                    (receiptSuccess receipt) stateChanges
                                    (receiptEvents parse receipt) gas)

/-- The decoder applied to a caught in-try throw: an Error object whose
only probed field is its message.  On such inputs `decodeEVMError`
cannot itself throw, so the error arm is unreachable. -/
def decodeCaughtError (oracle : AbiOracle) (e : String) : DecodedError :=
  match decodeEVMError oracle (ErrInput.obj { message := some e }) with
  | Except.ok d => d
  | Except.error msg => { type := "unknown", message := msg, raw := none }

/-- The empty state report the catch path returns. -/
def emptyStateReportA (sender toAddr : String) : AStateImpactReport :=
  { sender := { address := strLower sender, before := [], after := [],
                changes := [] }
    recipient := { address := strLower toAddr, before := [], after := [],
                   changes := [] }
    contractsAffected := [] }

/-- The empty gas report the catch path returns. -/
def emptyGasReportA (sym : String) : AGasReport :=
  { gasUsed := "0", gasPrice := "0", totalCostWei := "0",
    totalCostNative := "0", nativeSymbol := sym }

/-- The catch block of `executeSimulation`: a NORMAL response with
`success=false` and the decoded thrown error. -/
def catchResponseA (oracle : AbiOracle) (sym : String) (req : ASimRequest)
    (e : String) : ASimResponse :=
  { success := false
    stateChanges := emptyStateReportA req.sender req.toAddr
    events := []
    gas := emptyGasReportA sym
    error := some (decodeCaughtError oracle e) }

/-- The finally block of `executeSimulation`.  The stopImpersonating
outcome is swallowed by its own catch, so it is unobservable and
carried by no world field.  A revert returning true completes the
block; a revert returning false throws the fatal revert error, and a
revert that itself throws is caught the same way — in both cases the
reset is the last resort, and only when the reset ALSO throws does the
block raise the combined FATAL message (interpolating the caught
revert error). -/
def finallyResultA (w : WorldA) : Except String Unit :=
  match w.revertFinR with
  | Except.ok true => Except.ok ()
  | Except.ok false =>
      match w.resetFinR with
      | Except.ok _ => Except.ok ()
      | Except.error re =>
          Except.error
            ("FATAL: State cleanup failed - both revert and reset failed. State is corrupted. Revert error: Error: FATAL: Failed to revert snapshot - state may be corrupted. Reset error: "
              ++ re)
  | Except.error rerr =>
      match w.resetFinR with
      | Except.ok _ => Except.ok ()
      | Except.error re =>
          Except.error
            ("FATAL: State cleanup failed - both revert and reset failed. State is corrupted. Revert error: "
              ++ rerr ++ ". Reset error: " ++ re)

/-- `executeSimulation` of simulator.ts over a `WorldA`: the snapshot
is taken before the try (its failure propagates untouched), then the
try body runs, whose throw the catch converts into a normal
`success=false` response, then the finally runs, whose own throw
overrides either outcome. -/
def executeSimulation (w : WorldA) (parse : EthLog → Option ParsedLog)
    (isAddr : String → Bool) (oracle : AbiOracle) (req : ASimRequest) :
    Except String ASimResponse :=
  match w.snapshotR with
  | Except.error e => Except.error e
  | Except.ok _ =>
      match tryBodyA w parse isAddr req with
      | Except.ok r =>
          match finallyResultA w with
          | Except.error fe => Except.error fe
          | Except.ok _ => Except.ok r
      | Except.error e =>
          match finallyResultA w with
          | Except.error fe => Except.error fe
          | Except.ok _ =>
              Except.ok (catchResponseA oracle w.nativeSymbol req e)

/-!
## Kind B simulation engine (simulator-wasm.ts, executeWasmSimulation)

Embedded the same way: a `WorldB` record holds the outcome of every
external chopsticks/polkadot call site.  The head-reset and the
chain-properties read happen before the try, so their failures
propagate; the big try has three exits — the unknown-extrinsic early
RETURN, the ExtrinsicFailed branch and the success branch — and the
catch resets once more and rethrows (or raises the combined FATAL
message when that reset also fails).
-/

/-- A weight record `{refTime, proofSize}` (stringified). -/
structure WWeight where
  refTime : String
  proofSize : String
deriving Repr, DecidableEq

/-- The result of `getPaymentInfo`: fee and weight. -/
structure WPaymentInfo where
  weight : WWeight
  partialFee : String
deriving Repr, DecidableEq

/-- `WasmGasReport` of types/wasm.ts. -/
structure WGasReport where
  weight : WWeight
  partialFee : String
  partialFeeFormatted : String
  nativeSymbol : String
deriving Repr, DecidableEq

/-- `WasmDecodedError` of types/wasm.ts (`error` is called `errName`
here). -/
structure WDecodedError where
  type : String
  pallet : Option String
  errName : Option String
  message : String
  raw : Option String
deriving Repr, DecidableEq

/-- The extrinsic of a kind-B request: a pallet/method call with
stringified arguments, or a raw hex blob.  The nested-call
preprocessing of array arguments only rewrites what is sent to the
node (an oracle here), so arguments stay opaque strings. -/
inductive WExtrinsic where
  | call (pallet method : String) (args : List String)
  | rawHex (hex : String)
deriving Repr, DecidableEq

/-- `WasmSimulateRequest` fields the engine branches on. -/
structure WRequest where
  sender : String
  extrinsic : WExtrinsic
  trackAssets : List Nat
deriving Repr, DecidableEq

/-- `WasmSimulateResponse`. -/
structure WResponse where
  success : Bool
  stateChanges : WStateImpactReport
  events : List WEvent
  gas : WGasReport
  error : Option WDecodedError
deriving Repr, DecidableEq

/-- The phase of a raw event record: an ApplyExtrinsic phase carrying
its extrinsic index, or any other phase (Initialization, Finalization,
…), which every embedded filter treats uniformly. -/
inductive WPhase where
  | applyExtrinsic (value : Nat)
  | otherPhase
deriving Repr, DecidableEq

/-- A decoded event record `{phase, event}` as produced by
`decodeWasmEvents`. -/
structure WEventRecord where
  phase : WPhase
  event : WEvent
deriving Repr, DecidableEq

/-- `getLastExtrinsicIndex` of wasm-event-decoder.ts: the maximum
ApplyExtrinsic index, starting from -1. -/
def getLastExtrinsicIndex (events : List WEventRecord) : Int :=
  events.foldl (fun mx r =>
    match r.phase with
    | WPhase.applyExtrinsic v => if (v : Int) > mx then (v : Int) else mx
    | WPhase.otherPhase => mx) (-1)

/-- `filterEventsByExtrinsicIndex` of wasm-event-decoder.ts. -/
def filterEventsByExtrinsicIndex (events : List WEventRecord)
    (extrinsicIndex : Int) : List WEvent :=
  (events.filter (fun r =>
    match r.phase with
    | WPhase.applyExtrinsic v => (v : Int) == extrinsicIndex
    | WPhase.otherPhase => false)).map (fun r => r.event)

/-- The relevant pallets of `filterRelevantEvents`. -/
def relevantPallets : List String :=
  ["balances", "assets", "tokens", "system", "transactionPayment"]

/-- The relevant methods of `filterRelevantEvents`. -/
def relevantMethods : List String :=
  ["Transfer", "Deposit", "Withdraw", "Reserved", "Unreserved",
   "ExtrinsicSuccess", "ExtrinsicFailed"]

/-- `filterRelevantEvents` of wasm-event-decoder.ts: keep events whose
pallet OR method is relevant. -/
def filterRelevantEvents (events : List WEvent) : List WEvent :=
  events.filter (fun e =>
    relevantPallets.contains e.pallet || relevantMethods.contains e.method)

/-- `padStart(n, "0")`. -/
def padStartZeros (s : String) (n : Nat) : String :=
  if s.length < n then
    String.mk (List.replicate (n - s.length) (Char.ofNat 48)) ++ s
  else s

/-- `formatBalance` of simulator-wasm.ts.  `BigInt(balance)` throws on
a non-numeric string (the error case); for the non-negative fee values
that reach it, JS BigInt truncating division agrees with Lean's `Int`
division, and `BigInt(10 ** decimals)` is exact for every on-chain
decimal count (≤ 22). -/
def formatBalance (balance : String) (decimals : Nat) :
    Except String String :=
  match jsBigInt balance with
  | none => Except.error "SyntaxError: Cannot convert to a BigInt"
  | some value =>
      Except.ok (toString (value / ((10 : Int) ^ decimals)) ++ "." ++
        String.mk ((padStartZeros
          (toString (value % ((10 : Int) ^ decimals))) decimals).data.take 6))

/-- The fields of a runtime error value that `decodeWasmError` of
wasm-error-decoder.ts probes on an object input.  The external
machinery — the metadata lookups `api.registry.findMetaError` (whose
argument is computed from the value itself) and the JS
stringifications `JSON.stringify`, `toHuman` and `toString` — is
carried as per-value oracle fields: `lookedPlain` is the lookup
outcome (section, name, space-joined docs) for the plain-object
`error.module` path and `lookedDispatch` for the codec `isModule`
path, each `none` when the lookup throws; `jsonStr` is
`JSON.stringify(error)`, `humanJson` is
`JSON.stringify(error.toHuman())`, `humanOrSelfJson` is
`JSON.stringify(error.toHuman?.() || error)` and `toStr` is
`error.toString()`.  `hasModuleField`/`hasToken`/`hasArithmetic` are
the truthiness of `error.module`/`error.token`/`error.arithmetic`;
`tokenText`/`arithmeticText` the payload already branched on `typeof`
(the string itself, else its JSON); `singleScalarKey` is set exactly
when `Object.keys(error).length === 1` and the value is a string or a
number, carrying the key and the interpolated value. -/
structure WErrObj where
  isModule : Bool := false
  isBadOrigin : Bool := false
  isCannotLookup : Bool := false
  isOther : Bool := false
  hasModuleField : Bool := false
  lookedPlain : Option (String × String × String) := none
  hasToken : Bool := false
  tokenText : String := ""
  hasArithmetic : Bool := false
  arithmeticText : String := ""
  singleScalarKey : Option (String × String) := none
  lookedDispatch : Option (String × String × String) := none
  jsonStr : String := ""
  humanJson : String := ""
  humanOrSelfJson : String := ""
  asOther : Option String := none
  message : Option String := none
  toStr : String := ""
deriving Repr, DecidableEq

/-- A runtime value handed to `decodeWasmError`: null or undefined
(the engine passes `failedEvent.data?.dispatchError ||
data?.dispatch_error`, which can be undefined), a primitive string, or
an object.  `JSON.stringify(null) = "null"` while
`JSON.stringify(undefined)` is undefined, so the nullish case records
which one it is. -/
inductive WErrInput where
  | nullish (isNull : Bool)
  | str (s : String)
  | obj (o : WErrObj)
deriving Repr, DecidableEq

/-- The DispatchError block of `decodeWasmError` (everything after the
plain-object block): `isModule` with its lookup try/catch — raw is the
stringified `toHuman()` on success and `toHuman?.() || error` on
lookup failure — then `isBadOrigin`, `isCannotLookup` and `isOther`
(none of which set raw), then the Error-object branch (`error.message`
truthy, raw from `toString()`), then the final unknown record with
`raw = JSON.stringify(error)`. -/
def dispatchDecode (o : WErrObj) : WDecodedError :=
  if o.isModule then
    match o.lookedDispatch with
    | some td =>
        { type := "module", pallet := some td.1, errName := some td.2.1,
          message := td.1 ++ "." ++ td.2.1 ++ ": " ++ td.2.2,
          raw := some o.humanJson }
    | none =>
        { type := "module", pallet := none, errName := none,
          message := "Unknown module error", raw := some o.humanOrSelfJson }
  else if o.isBadOrigin then
    { type := "badOrigin", pallet := none, errName := none,
      message := "Bad origin - caller not authorized for this action",
      raw := none }
  else if o.isCannotLookup then
    { type := "cannotLookup", pallet := none, errName := none,
      message := "Cannot lookup - invalid account or reference",
      raw := none }
  else if o.isOther then
    { type := "other", pallet := none, errName := none,
      message := jsOrElse o.asOther "Other error", raw := none }
  else if jsStrTruthy o.message then
    { type := "unknown", pallet := none, errName := none,
      message := o.message.getD "", raw := some o.toStr }
  else
    { type := "unknown", pallet := none, errName := none,
      message := "Unknown error occurred", raw := some o.jsonStr }

/-- `decodeWasmError` of wasm-error-decoder.ts.  An object that is
neither `isModule` nor `isBadOrigin` first goes through the
plain-object block: a truthy `error.module` whose metadata lookup
succeeds returns a module record with `raw = JSON.stringify(error)`
(a lookup throw is caught and FALLS THROUGH); then truthy
`error.token` / `error.arithmetic` return token/arithmetic records
with raw; then a single-scalar-key object returns a
`{type: key, message: "key: value"}` record with raw; otherwise the
value falls into the DispatchError block.  A string returns
`unknown(string)` with no raw; null/undefined fall to the final
unknown record whose raw is `JSON.stringify(error)` — `"null"` for
null, absent for undefined. -/
def decodeWasmError : WErrInput → WDecodedError
  | WErrInput.nullish isNull =>
      { type := "unknown", pallet := none, errName := none,
        message := "Unknown error occurred",
        raw := if isNull then some "null" else none }
  | WErrInput.str s =>
      { type := "unknown", pallet := none, errName := none,
        message := s, raw := none }
  | WErrInput.obj o =>
      if !o.isModule && !o.isBadOrigin then
        match (if o.hasModuleField then o.lookedPlain else none) with
        | some td =>
            { type := "module", pallet := some td.1, errName := some td.2.1,
              message := td.1 ++ "." ++ td.2.1 ++ ": " ++ td.2.2,
              raw := some o.jsonStr }
        | none =>
            if o.hasToken then
              { type := "token", pallet := none, errName := none,
                message := "Token Error: " ++ o.tokenText,
                raw := some o.jsonStr }
            else if o.hasArithmetic then
              { type := "arithmetic", pallet := none, errName := none,
                message := "Arithmetic Error: " ++ o.arithmeticText,
                raw := some o.jsonStr }
            else
              match o.singleScalarKey with
              | some kv =>
                  { type := kv.1, pallet := none, errName := none,
                    message := kv.1 ++ ": " ++ kv.2,
                    raw := some o.jsonStr }
              | none => dispatchDecode o
      else dispatchDecode o

/-- Substring test on character lists (JS `String.includes`). -/
def containsSub (needle : List Char) : List Char → Bool
  | [] => needle.isEmpty
  | c :: rest => needle.isPrefixOf (c :: rest) || containsSub needle rest

/-- JS `hay.includes(needle)`. -/
def strContains (hay needle : String) : Bool :=
  containsSub needle.data hay.data

/-- The kind-B recipient heuristic: for a pallet/method call whose
lowercased method contains "transfer" and that has arguments,
`args[0]?.toString() || null` (so an empty first argument is no
recipient); raw-hex extrinsics never yield one. -/
def wasmRecipient : WExtrinsic → Option String
  | WExtrinsic.rawHex _ => none
  | WExtrinsic.call _ method args =>
      if strContains (strLower method) "transfer" && !args.isEmpty then
        match args.head? with
        | some a => if a = "" then none else some a
        | none => none
      else none

/-- The addresses the kind-B run tracks: sender, plus the recipient
when one was recognised. -/
def trackedW (req : WRequest) (recipient : Option String) : List String :=
  match recipient with
  | some r => [req.sender, r]
  | none => [req.sender]

/-- The events attributed to the injected extrinsic: those at the last
ApplyExtrinsic index. -/
def ourEventsOf (records : List WEventRecord) : List WEvent :=
  filterEventsByExtrinsicIndex records (getLastExtrinsicIndex records)

/-- `ourEvents.find(e => e.pallet === "system" && e.method ===
"ExtrinsicFailed")`. -/
def findFailed (events : List WEvent) : Option WEvent :=
  events.find? (fun e => e.pallet == "system" && e.method == "ExtrinsicFailed")

/-- The empty state report of the kind-B failure responses. -/
def emptyStateReportW (sender : String) : WStateImpactReport :=
  { sender := { address := sender, before := [], after := [],
                changes := [] }
    recipient := none
    otherAffected := [] }

/-- The empty gas report of the kind-B unknown-extrinsic response. -/
def emptyGasReportW (sym : String) : WGasReport :=
  { weight := { refTime := "0", proofSize := "0" }, partialFee := "0",
    partialFeeFormatted := "0", nativeSymbol := sym }

/-- The populated gas report of the kind-B outcome responses. -/
def wasmGas (pi : WPaymentInfo) (fmt sym : String) : WGasReport :=
  { weight := pi.weight, partialFee := pi.partialFee,
    partialFeeFormatted := fmt, nativeSymbol := sym }

/-- Outcomes of the kind-B engine's external call sites, in source
order: the head reset; the chain-properties read (symbol, decimals);
the raw-hex extrinsic construction; whether `api.tx[pallet]?.[method]`
exists; the call-extrinsic construction; asset metadata (total:
`getAssetMetadata` catches per asset); the account and asset reads of
the balance tracker (total against these oracles); payment info;
nonce; signFake with the byte patch (pure, folded into `signR`);
submit; newBlock; the events read; the dispatch error carried by a
failed event; and the three reset call sites (failed branch, success
branch, catch). -/
structure WorldB where
  reset1R : Except String Unit
  chainPropsR : Except String (String × Nat)
  rawTxR : Except String Unit
  palletKnown : Bool
  buildCallR : Except String Unit
  assetMeta : List (Nat × TokenMeta)
  acct : String → Except String WAccountData
  assetsPallet : Bool
  assetAcct : Nat → String → Except String (Option String)
  paymentInfoR : Except String WPaymentInfo
  nonceR : Except String Nat
  signR : Except String Unit
  submitR : Except String Unit
  newBlockR : Except String Unit
  eventsR : Except String (List WEventRecord)
  dispatchErrOf : WEvent → WErrInput
  resetFailR : Except String Unit
  resetOkR : Except String Unit
  resetCatchR : Except String Unit

/-- The try body of `executeWasmSimulation` after the extrinsic was
built: payment info, nonce, sign, submit, newBlock, events; then
either the ExtrinsicFailed branch (reset — fatally throwing into the
catch when it fails — then a `success=false` response decoding the
dispatch error) or the success branch (state built from the events,
reset — fatally throwing when it fails — then a `success=true`
response with no error).  `formatBalance` is evaluated while the
response object is constructed, after the branch's reset. -/
def tryAfterBuildB (w : WorldB) (req : WRequest) (sym : String) (dec : Nat)
    (recipient : Option String) : Except String WResponse :=
  match w.paymentInfoR with
  | Except.error e => Except.error e
  | Except.ok paymentInfo =>
      match w.nonceR with
      | Except.error e => Except.error e
      | Except.ok _ =>
          match w.signR with
          | Except.error e => Except.error e
          | Except.ok _ =>
              match w.submitR with
              | Except.error e => Except.error e
              | Except.ok _ =>
                  match w.newBlockR with
                  | Except.error e => Except.error e
                  | Except.ok _ =>
                      match w.eventsR with
                      | Except.error e => Except.error e
                      | Except.ok records =>
                          match findFailed (ourEventsOf records) with
                          | some fe =>
                              match w.resetFailR with
                              | Except.error re =>
                                  Except.error
                                    ("FATAL: State cleanup failed after transaction failure. Reset error: "
                                      ++ re)
                              | Except.ok _ =>
                                  match formatBalance
                                      paymentInfo.partialFee dec with
                                  | Except.error e => Except.error e
                                  | Except.ok fmt =>
                                      Except.ok
                                        { success := false
                                          stateChanges :=
                                            emptyStateReportW req.sender
                                          events := filterRelevantEvents
                                            (ourEventsOf records)
                                          gas := wasmGas paymentInfo fmt sym
                                          error := some (decodeWasmError
                                            (w.dispatchErrOf fe)) }
                          | none =>
                              match buildStateFromEvents req.sender
                                  recipient (ourEventsOf records)
                                  (captureBalancesW w.acct w.assetsPallet
                                    w.assetAcct (trackedW req recipient)
                                    req.trackAssets)
                                  w.assetMeta sym dec with
                              | Except.error e => Except.error e
                              | Except.ok stateChanges =>
                                  match w.resetOkR with
                                  | Except.error re =>
                                      Except.error
                                        ("FATAL: State cleanup failed after successful transaction. Reset error: "
                                          ++ re)
                                  | Except.ok _ =>
                                      match formatBalance
                                          paymentInfo.partialFee dec with
                                      | Except.error e => Except.error e
                                      | Except.ok fmt =>
                                          Except.ok
                                            { success := true
                                              stateChanges := stateChanges
                                              events :=
                                                filterRelevantEvents
                                                  (ourEventsOf records)
                                              gas := wasmGas paymentInfo
                                                fmt sym
                                              error := none }

/-- The whole try block of `executeWasmSimulation`: build the
extrinsic — a raw-hex construction may throw; an unknown
pallet/method RETURNS the `success=false` unknown-extrinsic response
from inside the try; a call construction may throw — then the rest of
the body. -/
def tryBodyB (w : WorldB) (req : WRequest) (sym : String) (dec : Nat) :
    Except String WResponse :=
  match req.extrinsic with
  | WExtrinsic.rawHex _ =>
      match w.rawTxR with
      | Except.error e => Except.error e
      | Except.ok _ => tryAfterBuildB w req sym dec none
  | WExtrinsic.call pallet method _ =>
      if w.palletKnown then
        match w.buildCallR with
        | Except.error e => Except.error e
        | Except.ok _ =>
            tryAfterBuildB w req sym dec (wasmRecipient req.extrinsic)
      else
        Except.ok
          { success := false
            stateChanges := emptyStateReportW req.sender
            events := []
            gas := emptyGasReportW sym
            error := some
              { type := "unknown"
                pallet := none
                errName := none
                message := "Unknown extrinsic: " ++ pallet ++ "." ++ method
                raw := none } }

/-- `executeWasmSimulation` of simulator-wasm.ts over a `WorldB`: the
head reset and the chain-properties read run before the try (their
failures propagate untouched); a throw from the try body reaches the
catch, which resets once more and RETHROWS the original error — or
raises the combined FATAL message when that reset also fails — so no
in-try throw ever becomes a normal response. -/
def executeWasmSimulation (w : WorldB) (req : WRequest) :
    Except String WResponse :=
  match w.reset1R with
  | Except.error e => Except.error e
  | Except.ok _ =>
      match w.chainPropsR with
      | Except.error e => Except.error e
      | Except.ok sd =>
          match tryBodyB w req sd.1 sd.2 with
          | Except.ok r => Except.ok r
          | Except.error e =>
              match w.resetCatchR with
              | Except.ok _ => Except.error e
              | Except.error re =>
                  Except.error
                    ("FATAL: State cleanup failed after simulation error. Original error: "
                      ++ e ++ ". Reset error: " ++ re)

/-!
## Concrete engine runs (C3 / C4)
-/

/-- The discovery-triggering log of the C3 run. -/
def logC3 : EthLog :=
  { topics := ["0xddf252ad"], data := "0x", address := "0xC0DE", index := 0 }

/-- A parse oracle decoding every log as a Transfer between two fresh
addresses. -/
def parseC3 : EthLog → Option ParsedLog := fun _ =>
  some { name := "Transfer",
         signature := "Transfer(address,address,uint256)",
         args := [("from", "0xF1"), ("to", "0xF2")] }

/-- The C3 request: a plain call with no calldata. -/
def reqC3 : ASimRequest :=
  { sender := "0xS", toAddr := "0xT", data := none, trackTokens := [] }

/-- The C3 world: every call succeeds, the first send mines a receipt
whose Transfer log discovers two new addresses, the mid-algorithm
revert reports FALSE, and in the finally the revert again reports
false but the last-resort reset succeeds, so the finally completes
normally. -/
def wC3 : WorldA :=
  { nativeSymbol := "GLMR"
    snapshotR := Except.ok "0x1"
    nat1 := fun _ => Except.ok 100
    tok1 := fun _ _ => 0
    gasPriceR := Except.ok 1
    signerR := Except.ok ()
    send1R := Except.ok (some { status := 1, logs := [logC3] })
    revertMidR := Except.ok false
    nat2 := fun _ => Except.ok 0
    tok2 := fun _ _ => 0
    send2R := Except.ok ()
    nat3 := fun _ => Except.ok 100
    tok3 := fun _ _ => 0
    tokenMeta := cMetaU
    gasReportR := Except.ok (emptyGasReportA "GLMR")
    revertFinR := Except.ok false
    resetFinR := Except.ok () }

/-- The FATAL message of the failed mid-algorithm revert. -/
def fatalMidMsg : String :=
  "FATAL: Failed to revert to snapshot for historical balance lookup"

/-- A kind-A world whose BEFORE capture throws, driving the engine
through its catch path; the finally succeeds. -/
def wA0 : WorldA :=
  { nativeSymbol := "GLMR"
    snapshotR := Except.ok "0x1"
    nat1 := fun _ => Except.error "missing trie node"
    tok1 := fun _ _ => 0
    gasPriceR := Except.ok 1
    signerR := Except.ok ()
    send1R := Except.ok none
    revertMidR := Except.ok true
    nat2 := fun _ => Except.ok 0
    tok2 := fun _ _ => 0
    send2R := Except.ok ()
    nat3 := fun _ => Except.ok 0
    tok3 := fun _ _ => 0
    tokenMeta := cMetaU
    gasReportR := Except.ok (emptyGasReportA "GLMR")
    revertFinR := Except.ok true
    resetFinR := Except.ok () }

/-- The request of the kind-A C4 witness run. -/
def reqA0 : ASimRequest :=
  { sender := "0xS", toAddr := "0xT", data := none, trackTokens := [] }

/-- The response the kind-A C4 witness run returns: the catch path on
the failed BEFORE capture. -/
def respA0 : ASimResponse :=
  catchResponseA oracle0 "GLMR" reqA0 "missing trie node"

/-- The kind-B C4 witness world: the pallet probe fails, driving the
engine to the unknown-extrinsic early return. -/
def wB0 : WorldB :=
  { reset1R := Except.ok ()
    chainPropsR := Except.ok ("DOT", 10)
    rawTxR := Except.ok ()
    palletKnown := false
    buildCallR := Except.ok ()
    assetMeta := []
    acct := acct0
    assetsPallet := true
    assetAcct := assetAcct0
    paymentInfoR := Except.ok
      { weight := { refTime := "1", proofSize := "1" }, partialFee := "10" }
    nonceR := Except.ok 0
    signR := Except.ok ()
    submitR := Except.ok ()
    newBlockR := Except.ok ()
    eventsR := Except.ok []
    dispatchErrOf := fun _ => WErrInput.nullish false
    resetFailR := Except.ok ()
    resetOkR := Except.ok ()
    resetCatchR := Except.ok () }

/-- The kind-B C4 witness request. -/
def reqB0 : WRequest :=
  { sender := "alice"
    extrinsic := WExtrinsic.call "foo" "bar" []
    trackAssets := [] }

/-- The response of the kind-B C4 witness run: the unknown-extrinsic
early return. -/
def respB0 : WResponse :=
  { success := false
    stateChanges := emptyStateReportW "alice"
    events := []
    gas := emptyGasReportW "DOT"
    error := some
      { type := "unknown", pallet := none, errName := none,
        message := "Unknown extrinsic: foo.bar", raw := none } }

/-!
## Association-list lemmas
-/

theorem alGet?_alSet_self {K V : Type} [DecidableEq K] (m : List (K × V))
    (k : K) (v : V) : alGet? (alSet m k v) k = some v := by
  induction m with
  | nil => simp [alSet, alGet?]
  | cons p rest ih =>
      obtain ⟨k1, v1⟩ := p
      by_cases h : k1 = k
      · simp [alSet, h, alGet?]
      · simp [alSet, h, alGet?, ih]

theorem alGet?_alSet_ne {K V : Type} [DecidableEq K] (m : List (K × V))
    (k k1 : K) (v : V) (h : k ≠ k1) : alGet? (alSet m k v) k1 = alGet? m k1 := by
  induction m with
  | nil => simp [alSet, alGet?, h]
  | cons p rest ih =>
      obtain ⟨k2, v2⟩ := p
      by_cases h2 : k2 = k
      · subst h2; simp [alSet, alGet?, h]
      · by_cases h3 : k2 = k1
        · subst h3; simp [alSet, alGet?, h2, Ne.symm h]
        · simp [alSet, alGet?, h2, h3, ih]

theorem alGetD_alSet_self {K V : Type} [DecidableEq K] (m : List (K × V))
    (k : K) (v d : V) : alGetD (alSet m k v) k d = v := by
  simp [alGetD, alGet?_alSet_self]

theorem alGetD_alSet_ne {K V : Type} [DecidableEq K] (m : List (K × V))
    (k k1 : K) (v d : V) (h : k ≠ k1) : alGetD (alSet m k v) k1 d = alGetD m k1 d := by
  simp [alGetD, alGet?_alSet_ne m k k1 v h]

theorem mem_alKeys_of_mem {K V : Type} {m : List (K × V)}
    {p : K × V} (hp : p ∈ m) : p.1 ∈ alKeys m := by
  induction m with
  | nil => cases hp
  | cons q rest ih =>
      obtain ⟨k1, v1⟩ := q
      rcases List.mem_cons.mp hp with h | h
      · subst h; simp [alKeys]
      · simp [alKeys, ih h]

theorem mem_alKeys_alSet {K V : Type} [DecidableEq K] {m : List (K × V)}
    {k a : K} {v : V} (h : a ∈ alKeys (alSet m k v)) : a ∈ alKeys m ∨ a = k := by
  induction m with
  | nil =>
      right
      simpa [alSet, alKeys] using h
  | cons p rest ih =>
      obtain ⟨k1, v1⟩ := p
      by_cases h1 : k1 = k
      · subst h1
        simp [alSet, alKeys] at h ⊢
        rcases h with h | h
        · left; left; exact h
        · left; right; exact h
      · simp [alSet, h1, alKeys] at h ⊢
        rcases h with h | h
        · left; left; exact h
        · rcases ih h with h2 | h2
          · left; right; exact h2
          · right; exact h2

theorem alSet_keys_nodup {K V : Type} [DecidableEq K] (m : List (K × V))
    (k : K) (v : V) (h : (alKeys m).Nodup) : (alKeys (alSet m k v)).Nodup := by
  induction m with
  | nil => simp [alSet, alKeys]
  | cons p rest ih =>
      obtain ⟨k1, v1⟩ := p
      rw [show alKeys ((k1, v1) :: rest) = k1 :: alKeys rest from rfl] at h
      rw [List.nodup_cons] at h
      by_cases h1 : k1 = k
      · subst h1
        rw [show alSet ((k1, v1) :: rest) k1 v = (k1, v) :: rest by
          simp [alSet]]
        rw [show alKeys ((k1, v) :: rest) = k1 :: alKeys rest from rfl]
        exact List.nodup_cons.mpr h
      · have hrest := ih h.2
        rw [show alSet ((k1, v1) :: rest) k v = (k1, v1) :: alSet rest k v by
          simp [alSet, h1]]
        rw [show alKeys ((k1, v1) :: alSet rest k v) =
          k1 :: alKeys (alSet rest k v) from rfl]
        refine List.nodup_cons.mpr ⟨?_, hrest⟩
        intro hmem
        rcases mem_alKeys_alSet hmem with h2 | h2
        · exact h.1 h2
        · exact h1 h2

theorem alGet?_eq_of_mem {K V : Type} [DecidableEq K] {m : List (K × V)}
    (hnd : (alKeys m).Nodup) {p : K × V} (hp : p ∈ m) :
    alGet? m p.1 = some p.2 := by
  induction m with
  | nil => cases hp
  | cons q rest ih =>
      obtain ⟨k1, v1⟩ := q
      rw [show alKeys ((k1, v1) :: rest) = k1 :: alKeys rest from rfl,
        List.nodup_cons] at hnd
      rcases List.mem_cons.mp hp with h | h
      · subst h; simp [alGet?]
      · have hne : k1 ≠ p.1 := by
          intro he
          exact hnd.1 (he ▸ mem_alKeys_of_mem h)
        simp [alGet?, hne, ih hnd.2 h]

theorem exceptBind_ok {α β : Type} {x : Except String α}
    {f : α → Except String β} {b : β} (h : x >>= f = Except.ok b) :
    ∃ a, x = Except.ok a ∧ f a = Except.ok b := by
  cases x with
  | ok a => exact ⟨a, rfl, h⟩
  | error e => exact absurd h (by simp [Bind.bind, Except.bind])

/-!
## Delta-map / spec-reduction correspondence
-/

theorem applyBalanceEvent_nodup {m m1 : List (String × Int)} {e : WEvent}
    (h : applyBalanceEvent m e = Except.ok m1)
    (hnd : (alKeys m).Nodup) : (alKeys m1).Nodup := by
  unfold applyBalanceEvent at h
  cases hc : classifyEvent e <;> rw [hc] at h <;>
    simp only [Except.ok.injEq] at h
  case transfer =>
      rw [← h]; exact alSet_keys_nodup _ _ _ (alSet_keys_nodup _ _ _ hnd)
  case withdraw => rw [← h]; exact alSet_keys_nodup _ _ _ hnd
  case deposit => rw [← h]; exact alSet_keys_nodup _ _ _ hnd
  case skip => rw [← h]; exact hnd
  case fail => cases h

theorem foldDeltas_nodup : ∀ (events : List WEvent)
    (m0 m : List (String × Int)), (alKeys m0).Nodup →
    events.foldlM applyBalanceEvent m0 = Except.ok m → (alKeys m).Nodup := by
  intro events
  induction events with
  | nil =>
      intro m0 m h0 h
      simp only [List.foldlM_nil, pure, Except.pure, Except.ok.injEq] at h
      exact h ▸ h0
  | cons e es ih =>
      intro m0 m h0 h
      rw [List.foldlM_cons] at h
      obtain ⟨m1, h1, h2⟩ := exceptBind_ok h
      exact ih m1 m (applyBalanceEvent_nodup h1 h0) h2

theorem applyBalanceEvent_delta {m m1 : List (String × Int)} {e : WEvent}
    (h : applyBalanceEvent m e = Except.ok m1) (addr : String) (acc : Int) :
    eventDeltaStep addr acc e =
      Except.ok (acc + (alGetD m1 addr 0 - alGetD m addr 0)) := by
  unfold applyBalanceEvent at h
  unfold eventDeltaStep
  cases hc : classifyEvent e <;> rw [hc] at h <;>
    simp only [Except.ok.injEq] at h
  case transfer f t a =>
    subst h
    by_cases hta : t = addr
    · subst hta
      by_cases hfa : f = t
      · subst hfa
        rw [alGetD_alSet_self, alGetD_alSet_self]
        simp only [eq_self_iff_true, if_true, Except.ok.injEq]
        ring
      · rw [alGetD_alSet_self, alGetD_alSet_ne _ _ _ _ _ hfa]
        simp only [hfa, if_false, if_pos rfl, Except.ok.injEq, ite_false,
          ite_true]
        ring
    · rw [alGetD_alSet_ne _ _ _ _ _ hta]
      by_cases hfa : f = addr
      · subst hfa
        rw [alGetD_alSet_self]
        simp only [hta, eq_self_iff_true, if_true, ite_false, Except.ok.injEq]
        ring
      · rw [alGetD_alSet_ne _ _ _ _ _ hfa]
        simp only [hta, hfa, ite_false, Except.ok.injEq]
        ring
  case withdraw w a =>
    subst h
    by_cases hwa : w = addr
    · subst hwa
      rw [alGetD_alSet_self]
      simp only [eq_self_iff_true, if_true, Except.ok.injEq]
      ring
    · rw [alGetD_alSet_ne _ _ _ _ _ hwa]
      simp only [hwa, ite_false, Except.ok.injEq]
      ring
  case deposit w a =>
    subst h
    by_cases hwa : w = addr
    · subst hwa
      rw [alGetD_alSet_self]
      simp only [eq_self_iff_true, if_true, Except.ok.injEq]
      ring
    · rw [alGetD_alSet_ne _ _ _ _ _ hwa]
      simp only [hwa, ite_false, Except.ok.injEq]
      ring
  case skip =>
    subst h
    simp
  case fail => cases h

theorem foldDeltas_spec : ∀ (events : List WEvent)
    (m0 m : List (String × Int)) (addr : String) (acc : Int),
    events.foldlM applyBalanceEvent m0 = Except.ok m →
    events.foldlM (eventDeltaStep addr) acc =
      Except.ok (acc + (alGetD m addr 0 - alGetD m0 addr 0)) := by
  intro events
  induction events with
  | nil =>
      intro m0 m addr acc h
      simp only [List.foldlM_nil, pure, Except.pure, Except.ok.injEq] at h
      subst h
      simp only [List.foldlM_nil, sub_self, add_zero]
      rfl
  | cons e es ih =>
      intro m0 m addr acc h
      rw [List.foldlM_cons] at h
      obtain ⟨m1, h1, h2⟩ := exceptBind_ok h
      rw [List.foldlM_cons, applyBalanceEvent_delta h1 addr acc]
      have := ih m1 m addr (acc + (alGetD m1 addr 0 - alGetD m0 addr 0)) h2
      rw [show ((Except.ok (acc + (alGetD m1 addr 0 - alGetD m0 addr 0)) :
        Except String Int) >>= fun b => es.foldlM (eventDeltaStep addr) b) =
        es.foldlM (eventDeltaStep addr)
          (acc + (alGetD m1 addr 0 - alGetD m0 addr 0)) from rfl]
      rw [this]
      congr 1
      ring

theorem eventDelta_eq_buildDeltas {events : List WEvent}
    {m : List (String × Int)} (h : buildDeltas events = Except.ok m)
    (addr : String) : eventDelta events addr = Except.ok (alGetD m addr 0) := by
  have := foldDeltas_spec events [] m addr 0 h
  simpa [eventDelta, alGetD, alGet?] using this

theorem buildDeltas_nodup {events : List WEvent} {m : List (String × Int)}
    (h : buildDeltas events = Except.ok m) : (alKeys m).Nodup :=
  foldDeltas_nodup events [] m (by simp [alKeys]) h

theorem eventDelta_of_mem_deltas {events : List WEvent}
    {m : List (String × Int)} (h : buildDeltas events = Except.ok m)
    {p : String × Int} (hp : p ∈ m) :
    eventDelta events p.1 = Except.ok p.2 := by
  have hg : alGet? m p.1 = some p.2 := alGet?_eq_of_mem (buildDeltas_nodup h) hp
  have := eventDelta_eq_buildDeltas h p.1
  rwa [alGetD, hg, Option.getD_some] at this

/-- C1: for every kind-B simulation that does not report
ExtrinsicFailed, the state-impact builder `buildStateFromEvents`
computes each reported address's native delta by reducing only the
given (injected-extrinsic) events — balances.Transfer subtracts the
amount from `from` and adds it to `to`, balances.Withdraw subtracts
from `who`, balances.Deposit adds to `who`, Reserved/Unreserved and
other pallets contribute nothing, amounts are parsed after stripping
comma separators (`eventDelta`) — the reported before value is
`free + reserved` of the BEFORE snapshot (0 when the address was not
snapshotted, `snapTotal`), and the reported after value is
`before + delta`.  This holds for the sender row, the recipient row
when present, and every otherAffected row. -/
theorem wasm_builder_reduces_events_to_deltas
    (sender : String) (recipient : Option String) (events : List WEvent)
    (before : List (String × WSnapshot)) (meta : List (Nat × TokenMeta))
    (sym : String) (dec : Nat) (R : WStateImpactReport)
    (h : buildStateFromEvents sender recipient events before meta sym dec =
      Except.ok R) :
    (∃ d, eventDelta events sender = Except.ok d ∧
       R.sender.address = sender ∧
       R.sender.before =
         [wasmNativeRow sym dec (snapTotal (alGet? before sender))] ∧
       R.sender.after =
         [wasmNativeRow sym dec (snapTotal (alGet? before sender) + d)]) ∧
    (∀ rs, R.recipient = some rs →
       ∃ d, eventDelta events rs.address = Except.ok d ∧
         recipient = some rs.address ∧
         rs.before =
           [wasmNativeRow sym dec (snapTotal (alGet? before rs.address))] ∧
         rs.after =
           [wasmNativeRow sym dec (snapTotal (alGet? before rs.address) + d)]) ∧
    (∀ st ∈ R.otherAffected,
       ∃ d, eventDelta events st.address = Except.ok d ∧
         st.before =
           [wasmNativeRow sym dec (snapTotal (alGet? before st.address))] ∧
         st.after =
           [wasmNativeRow sym dec (snapTotal (alGet? before st.address) + d)]) := by
  unfold buildStateFromEvents at h
  rcases hd : buildDeltas events with e | deltas <;> rw [hd] at h
  · cases h
  simp only [Except.ok.injEq] at h
  subst h
  refine ⟨⟨alGetD deltas sender 0, eventDelta_eq_buildDeltas hd sender,
    rfl, rfl, rfl⟩, ?_, ?_⟩
  · intro rs hrs
    simp only at hrs
    rcases recipient with _ | rc
    · cases hrs
    · simp only at hrs
      by_cases hrd : alGetD deltas rc 0 ≠ 0
      · rw [if_pos hrd] at hrs
        cases hrs
        exact ⟨alGetD deltas rc 0, eventDelta_eq_buildDeltas hd rc,
          rfl, rfl, rfl⟩
      · rw [if_neg hrd] at hrs
        cases hrs
  · intro st hst
    simp only at hst
    rcases List.mem_filterMap.mp hst with ⟨p, hp, hf⟩
    split at hf
    · cases hf
    · simp only [Option.some.injEq] at hf
      subst hf
      exact ⟨p.2, eventDelta_of_mem_deltas hd hp, rfl, rfl⟩

/-- Witness for C1: a Transfer with a comma-separated amount plus a
Withdraw fee and an ignored Reserved event; the sender loses 1007, the
unsnapshotted recipient gains 1000 from a zero before value. -/
theorem wasm_builder_reduces_events_to_deltas_witness :
    (buildStateFromEvents "alice" (some "bob") [wEvT, wEvW, wEvR] wBefore0 []
      "DOT" 10 = Except.ok wReport0) ∧
    (∃ d, eventDelta [wEvT, wEvW, wEvR] "alice" = Except.ok d ∧
      wReport0.sender.address = "alice" ∧
      wReport0.sender.before =
        [wasmNativeRow "DOT" 10 (snapTotal (alGet? wBefore0 "alice"))] ∧
      wReport0.sender.after =
        [wasmNativeRow "DOT" 10 (snapTotal (alGet? wBefore0 "alice") + d)]) :=
  ⟨by rfl,
   (wasm_builder_reduces_events_to_deltas "alice" (some "bob")
     [wEvT, wEvW, wEvR] wBefore0 [] "DOT" 10 wReport0 (by rfl)).1⟩

theorem alGet?_isSome_of_mem_keys {K V : Type} [DecidableEq K]
    {m : List (K × V)} {addr : K} (h : addr ∈ alKeys m) : ∃ v, alGet? m addr = some v := by
  induction m with
  | nil => cases h
  | cons p rest ih =>
      obtain ⟨k1, v1⟩ := p
      rw [show alKeys ((k1, v1) :: rest) = k1 :: alKeys rest from rfl] at h
      by_cases he : k1 = addr
      · exact ⟨v1, by simp [alGet?, he]⟩
      · rcases List.mem_cons.mp h with h1 | h1
        · exact absurd h1.symm he
        · rcases ih h1 with ⟨v, hv⟩
          exact ⟨v, by simp [alGet?, he, hv]⟩

/-- Counting rows produced by a filterMap over a keyed list: when keys
are unique, a selected key with a guaranteed row yields exactly one
matching row, and an absent key yields none. -/
theorem filterMap_filter_count {α β : Type} (l : List α)
    (f : α → Option β) (q : β → Bool) (key : α → String) (addr : String)
    (hnd : (l.map key).Nodup)
    (hQ : ∀ a ∈ l, ∀ b, f a = some b → (q b = true ↔ key a = addr))
    (hEx : ∀ a ∈ l, key a = addr → ∃ b, f a = some b) :
    ((l.filterMap f).filter q).length =
      if addr ∈ l.map key then 1 else 0 := by
  induction l with
  | nil => simp
  | cons a rest ih =>
      rw [List.map_cons, List.nodup_cons] at hnd
      have ihr := ih hnd.2 (fun x hx => hQ x (List.mem_cons_of_mem a hx))
        (fun x hx => hEx x (List.mem_cons_of_mem a hx))
      rcases hf : f a with _ | b
      · have hka : key a ≠ addr := by
          intro he
          rcases hEx a (List.mem_cons_self a rest) he with ⟨b, hb⟩
          rw [hf] at hb; cases hb
        rw [List.filterMap_cons_none hf, ihr]
        simp [hka, Ne.symm hka]
      · rw [List.filterMap_cons_some hf]
        by_cases hka : key a = addr
        · have hq : q b = true := (hQ a (List.mem_cons_self a rest) b hf).mpr hka
          have hnot : addr ∉ rest.map key := by
            intro hmem
            exact hnd.1 (hka ▸ hmem)
          rw [List.filter_cons_of_pos hq]
          simp only [List.length_cons, ihr, hnot, if_false]
          simp [hka]
        · have hq : q b = false := by
            rcases hqb : q b with _ | _
            · rfl
            · exact absurd ((hQ a (List.mem_cons_self a rest) b hf).mp hqb) hka
          rw [List.filter_cons_of_neg (by simp [hq])]
          rw [ihr]
          simp [Ne.symm hka, hka]

/-- The changes list built by `buildAddressState` is non-empty exactly
when the native balance moved or some observed token balance moved. -/
theorem buildAddressState_changes_ne_nil (addr : String)
    (b a : ASnapshot) (meta : List (String × TokenMeta)) (sym : String) :
    ((buildAddressState addr b a meta sym).changes ≠ []) ↔
      (a.native ≠ b.native ∨ ∃ t ∈ unionKeys b.tokens a.tokens,
        alGetD a.tokens t 0 ≠ alGetD b.tokens t 0) := by
  unfold buildAddressState
  dsimp only
  rw [ne_eq, List.append_eq_nil, not_and_or]
  constructor
  · rintro (h | h)
    · left
      intro he
      apply h
      rw [if_neg (by rw [he, sub_self]; exact fun hc => hc rfl)]
    · right
      rw [List.filterMap_eq_nil_iff] at h
      push_neg at h
      rcases h with ⟨t, ht, hft⟩
      refine ⟨t, ht, ?_⟩
      intro he
      apply hft
      rw [if_neg (by rw [he, sub_self]; exact fun hc => hc rfl)]
  · rintro (h | ⟨t, ht, hd⟩)
    · left
      rw [if_pos (sub_ne_zero_of_ne h)]
      simp
    · right
      rw [List.filterMap_eq_nil_iff]
      intro hall
      have hn := hall t ht
      rw [if_pos (sub_ne_zero_of_ne hd)] at hn
      cases hn

/-- `specHasChange` through explicit snapshot lookups. -/
theorem specHasChange_iff {bm am : List (String × ASnapshot)} {addr : String}
    {b a : ASnapshot} (hb : alGet? bm addr = some b)
    (ha : alGet? am addr = some a) :
    specHasChange bm am addr = true ↔
      (a.native ≠ b.native ∨ ∃ t ∈ unionKeys b.tokens a.tokens,
        alGetD a.tokens t 0 ≠ alGetD b.tokens t 0) := by
  unfold specHasChange
  rw [show alGetD bm addr { native := 0, tokens := [] } = b by
        rw [alGetD, hb, Option.getD_some],
      show alGetD am addr { native := 0, tokens := [] } = a by
        rw [alGetD, ha, Option.getD_some]]
  simp [List.any_eq_true]

/-- C5: counterparty row policy.  Kind A (`buildStateImpactReport`):
the counterparty row is always present — it is a non-optional field of
every successfully built report — and its address is the lowercased
calldata-extracted token recipient when one exists, otherwise the
transaction's `to` address.  Kind B (`buildStateFromEvents`): the
sender row is always present; the recipient row is present exactly
when a recognised recipient exists AND its event-reduced delta is
non-zero; and every otherAffected row has a non-zero delta (exact
zeros are omitted). -/
theorem counterparty_row_policy :
    (∀ (tokenMeta : String → TokenMeta) (sender toAddr : String)
       (toks : List String) (bm am : List (String × ASnapshot))
       (sym : String) (tokRec : Option String) (R : AStateImpactReport),
       buildStateImpactReport tokenMeta sender toAddr toks bm am sym tokRec =
         Except.ok R →
       R.recipient.address = strLower (jsOrElse tokRec toAddr)) ∧
    (∀ (sender : String) (recipient : Option String) (events : List WEvent)
       (before : List (String × WSnapshot)) (meta : List (Nat × TokenMeta))
       (sym : String) (dec : Nat) (R : WStateImpactReport),
       buildStateFromEvents sender recipient events before meta sym dec =
         Except.ok R →
       R.sender.address = sender ∧
       ((∃ rs, R.recipient = some rs) ↔
         (∃ rc d, recipient = some rc ∧
           eventDelta events rc = Except.ok d ∧ d ≠ 0)) ∧
       (∀ st ∈ R.otherAffected,
         ∃ d, eventDelta events st.address = Except.ok d ∧ d ≠ 0)) := by
  constructor
  · intro tokenMeta sender toAddr toks bm am sym tokRec R h
    unfold buildStateImpactReport at h
    rcases hsb : alGet? bm (strLower sender) with _ | sb <;> rw [hsb] at h
    · cases h
    rcases hsa : alGet? am (strLower sender) with _ | sa <;> rw [hsa] at h
    · cases h
    simp only [Except.ok.injEq] at h
    subst h
    rfl
  · intro sender recipient events before meta sym dec R h
    unfold buildStateFromEvents at h
    rcases hd : buildDeltas events with e | deltas <;> rw [hd] at h
    · cases h
    simp only [Except.ok.injEq] at h
    subst h
    refine ⟨rfl, ?_, ?_⟩
    · constructor
      · rintro ⟨rs, hrs⟩
        simp only at hrs
        rcases recipient with _ | rc
        · cases hrs
        · simp only at hrs
          by_cases hrd : alGetD deltas rc 0 ≠ 0
          · exact ⟨rc, alGetD deltas rc 0, rfl,
              eventDelta_eq_buildDeltas hd rc, hrd⟩
          · rw [if_neg hrd] at hrs
            cases hrs
      · rintro ⟨rc, d, hrc, hdelta, hdne⟩
        subst hrc
        have he := eventDelta_eq_buildDeltas hd rc
        rw [hdelta] at he
        simp only [Except.ok.injEq] at he
        subst he
        simp only
        rw [if_pos hdne]
        exact ⟨_, rfl⟩
    · intro st hst
      simp only at hst
      rcases List.mem_filterMap.mp hst with ⟨p, hp, hf⟩
      split at hf
      · cases hf
      · next hcond =>
          simp only [Option.some.injEq] at hf
          subst hf
          refine ⟨p.2, eventDelta_of_mem_deltas hd hp, ?_⟩
          intro h0
          apply hcond
          simp [h0]

/-- Witness for C5: the kind-A part at the C6 witness input (a
calldata recipient that differs from the transaction target), showing
the counterparty row carries the extracted recipient. -/
theorem counterparty_row_policy_witness :
    (buildStateImpactReport cMetaU "0xaa" "0xbb" [] c6wBefore c6wAfter "ETH"
      (some "0xdd") = Except.ok
        { sender := { address := "0xaa", before := [aNatRow "ETH" 10],
                      after := [aNatRow "ETH" 10], changes := [] }
          recipient := { address := "0xdd", before := [aNatRow "ETH" 0],
                         after := [aNatRow "ETH" 0], changes := [] }
          contractsAffected := c6wReport.contractsAffected }) ∧
    ({ sender := { address := "0xaa", before := [aNatRow "ETH" 10],
                   after := [aNatRow "ETH" 10], changes := [] }
       recipient := { address := "0xdd", before := [aNatRow "ETH" 0],
                      after := [aNatRow "ETH" 0], changes := [] }
       contractsAffected :=
         c6wReport.contractsAffected } : AStateImpactReport).recipient.address
      = strLower (jsOrElse (some "0xdd") "0xbb") :=
  ⟨by rfl,
   counterparty_row_policy.1 cMetaU "0xaa" "0xbb" [] c6wBefore c6wAfter "ETH"
     (some "0xdd") _ (by rfl)⟩

theorem alKeys_eq_map {K V : Type} (m : List (K × V)) :
    alKeys m = m.map Prod.fst := by
  induction m with
  | nil => rfl
  | cons p rest ih =>
      obtain ⟨k, v⟩ := p
      rw [show alKeys ((k, v) :: rest) = k :: alKeys rest from rfl,
        List.map_cons, ih]

theorem affectedRow_some {am : List (String × ASnapshot)}
    {meta : List (String × TokenMeta)} {sym sL rL : String}
    {p : String × ASnapshot} {st : AAddressState}
    (h : affectedRow am meta sym sL rL p = some st) :
    st.address = strLower p.1 ∧ p.1 ≠ sL ∧ p.1 ≠ rL ∧
      ∃ aft, alGet? am p.1 = some aft ∧
        st = buildAddressState p.1 p.2 aft meta sym ∧
        (buildAddressState p.1 p.2 aft meta sym).changes ≠ [] := by
  unfold affectedRow at h
  split at h
  · cases h
  · next hcond =>
      simp only [Bool.or_eq_true, decide_eq_true_eq, not_or] at hcond
      rcases ha : alGet? am p.1 with _ | aft <;> rw [ha] at h
      · cases h
      · simp only at h
        split at h
        · next hch =>
            simp only [Option.some.injEq] at h
            subst h
            exact ⟨rfl, hcond.1, hcond.2, aft, rfl, rfl, hch⟩
        · cases h

theorem affectedRow_isSome {am : List (String × ASnapshot)}
    {meta : List (String × TokenMeta)} {sym sL rL : String}
    {p : String × ASnapshot} {aft : ASnapshot}
    (h1 : p.1 ≠ sL) (h2 : p.1 ≠ rL) (ha : alGet? am p.1 = some aft)
    (hch : (buildAddressState p.1 p.2 aft meta sym).changes ≠ []) :
    affectedRow am meta sym sL rL p =
      some (buildAddressState p.1 p.2 aft meta sym) := by
  unfold affectedRow
  rw [if_neg (by simp [h1, h2]), ha]
  simp only
  rw [if_pos hch]

theorem buildAddressState_address (addr : String) (b a : ASnapshot)
    (meta : List (String × TokenMeta)) (sym : String) :
    (buildAddressState addr b a meta sym).address = strLower addr := rfl

theorem filterMap_filter_count_zero {α β : Type} (l : List α)
    (f : α → Option β) (q : β → Bool)
    (hQ : ∀ a ∈ l, ∀ b, f a = some b → q b = false) :
    ((l.filterMap f).filter q).length = 0 := by
  rw [List.length_eq_zero, List.filter_eq_nil_iff]
  intro b hb
  rcases List.mem_filterMap.mp hb with ⟨a, ha, hf⟩
  simp [hQ a ha b hf]

/-- C6 amended: for the kind-A builder, restrict the quantification to
addresses present in BOTH maps (the otherAffected loop walks the BEFORE
map and requires an AFTER entry), over maps whose keys are lowercase
and duplicate-free (as `captureBalances` produces them), with the
sender present in both maps (the source reads it with a non-null
assertion) and distinct sender/counterparty rows; every such address
with at least one non-zero change is then reported exactly once. -/
theorem report_once_amended (tokenMeta : String → TokenMeta)
    (sender toAddr : String) (toks : List String)
    (bm am : List (String × ASnapshot)) (sym : String)
    (tokRec : Option String) (R : AStateImpactReport) (addr : String)
    (hok : buildStateImpactReport tokenMeta sender toAddr toks bm am sym
      tokRec = Except.ok R)
    (hnd : (alKeys bm).Nodup)
    (hlow : ∀ k ∈ alKeys bm, strLower k = k)
    (hsr : strLower sender ≠ strLower (jsOrElse tokRec toAddr))
    (hmemB : addr ∈ alKeys bm) (hmemA : addr ∈ alKeys am)
    (hch : specHasChange bm am addr = true) :
    reportRowCount R addr = 1 := by
  unfold buildStateImpactReport at hok
  rcases hsb : alGet? bm (strLower sender) with _ | sb <;> rw [hsb] at hok
  · cases hok
  rcases hsa : alGet? am (strLower sender) with _ | sa <;> rw [hsa] at hok
  · cases hok
  simp only [Except.ok.injEq] at hok
  subst hok
  simp only [reportRowCount, buildAddressState_address]
  set tm := toks.foldl (fun m t => alSet m (strLower t) (tokenMeta t)) []
    with htm
  set sL := strLower sender with hsL
  set rL := strLower (jsOrElse tokRec toAddr) with hrL
  set F := affectedRow am tm sym sL rL with hF
  have haddrOf : ∀ p ∈ bm, ∀ st, F p = some st → st.address = p.1 := by
    intro p hp st hf
    rcases affectedRow_some hf with ⟨hsta, _, _, _⟩
    rw [hsta]
    exact hlow p.1 (mem_alKeys_of_mem hp)
  by_cases h1 : sL = addr
  · rw [if_pos h1, if_neg (fun hc : rL = addr => hsr (h1.trans hc.symm))]
    have h0 := filterMap_filter_count_zero bm F
      (fun st => decide (st.address = addr)) (by
        intro p hp st hf
        rcases affectedRow_some hf with ⟨_, hne1, _, _⟩
        apply decide_eq_false
        intro hc
        apply hne1
        rw [← haddrOf p hp st hf, hc, ← h1]
        )
    rw [h0]
  · by_cases h2 : rL = addr
    · rw [if_neg h1, if_pos h2]
      have h0 := filterMap_filter_count_zero bm F
        (fun st => decide (st.address = addr)) (by
          intro p hp st hf
          rcases affectedRow_some hf with ⟨_, _, hne2, _⟩
          apply decide_eq_false
          intro hc
          apply hne2
          rw [← haddrOf p hp st hf, hc, ← h2]
          )
      rw [h0]
    · rw [if_neg h1, if_neg h2]
      rcases alGet?_isSome_of_mem_keys hmemA with ⟨aft, haft⟩
      have hcount := filterMap_filter_count bm F
        (fun st => decide (st.address = addr)) Prod.fst addr
        (by rw [← alKeys_eq_map]; exact hnd)
        (by
          intro p hp st hf
          rw [decide_eq_true_iff, haddrOf p hp st hf])
        (by
          intro p hp hkey
          obtain ⟨pk, pv⟩ := p
          simp only at hkey
          subst hkey
          have hgb : alGet? bm pk = some pv := alGet?_eq_of_mem hnd hp
          have hchg : (buildAddressState pk pv aft tm sym).changes ≠ [] := by
            rw [buildAddressState_changes_ne_nil]
            exact (specHasChange_iff hgb haft).mp hch
          exact ⟨_, affectedRow_isSome (fun hc => h1 hc.symm)
            (fun hc => h2 hc.symm) haft hchg⟩)
      rw [← alKeys_eq_map] at hcount
      rw [hcount, if_pos hmemB]

/-- C6 counterexample: address 0xx appears only in the AFTER map, with
a non-zero native change in the claim's sense, yet the report built
from these maps contains no row for it — the otherAffected loop only
walks the BEFORE map. -/
theorem report_once_counterexample :
    buildStateImpactReport cMetaU "0xaa" "0xbb" [] c6Before c6After "ETH" none
      = Except.ok c6Report ∧
    ("0xx" ∈ alKeys c6Before ∨ "0xx" ∈ alKeys c6After) ∧
    specHasChange c6Before c6After "0xx" = true ∧
    reportRowCount c6Report "0xx" = 0 :=
  ⟨by rfl, by decide, by rfl, by rfl⟩

/-- Witness for the amended C6: address 0xcc sits in both maps with a
native change of +1 and is reported exactly once. -/
theorem report_once_amended_witness :
    (buildStateImpactReport cMetaU "0xaa" "0xbb" [] c6wBefore c6wAfter "ETH"
      none = Except.ok c6wReport) ∧
    specHasChange c6wBefore c6wAfter "0xcc" = true ∧
    reportRowCount c6wReport "0xcc" = 1 :=
  ⟨by rfl, by rfl,
   report_once_amended cMetaU "0xaa" "0xbb" [] c6wBefore c6wAfter "ETH" none
     c6wReport "0xcc" (by rfl) (by decide) (by decide) (by decide)
     (by decide) (by decide) (by rfl)⟩

/-- C2 counterexample: transfer calldata with a 32-byte payload (64
hex characters after the selector; total string length 74).  The code
extracts the recipient from it, while the claim — which demands a
payload of at least 64 bytes, and whose boundary clause says calldata
shorter than 68 hex characters after the selector yields none —
requires no extraction here. -/
theorem extract_recipient_counterexample :
    extractTransferRecipient isHexAddress (some shortTransferData) =
      some "0xf39fd6e51aad88f6f4ce6ab8827279cfffb92266" ∧
    claimExtractRecipient isHexAddress (some shortTransferData) = none ∧
    shortTransferData.length = 74 :=
  ⟨by rfl, by rfl, by rfl⟩

/-- C2 amended: extraction succeeds exactly when the lowercased
selector is transfer and the data is at least 74 hex characters long
(64 after the 0x-prefixed selector, i.e. a 32-byte payload), taking
characters [34, 74) as the right-aligned recipient, or the selector is
transferFrom and the data is at least 138 characters long (a 64-byte
payload), taking characters [98, 138); in both cases the decoded
recipient must pass the address validator.  All other inputs yield
none. -/
theorem extract_recipient_amended (isAddr : String → Bool)
    (data : Option String) (r : String) :
    extractTransferRecipient isAddr data = some r ↔
      ∃ d, data = some d ∧
        ((strLower (jsSlice d 0 10) = "0xa9059cbb" ∧ 74 ≤ d.length ∧
          r = "0x" ++ jsSlice d 34 74 ∧ isAddr r = true) ∨
         (strLower (jsSlice d 0 10) = "0x23b872dd" ∧ 138 ≤ d.length ∧
          r = "0x" ++ jsSlice d 98 138 ∧ isAddr r = true)) := by
  rcases data with _ | d
  · simp [extractTransferRecipient]
  · show (if (!jsStrTruthy (some d) || decide (d.length < 10)) = true
        then none
        else if (decide (strLower (jsSlice d 0 10) = "0xa9059cbb") &&
            decide (74 ≤ d.length) && isAddr ("0x" ++ jsSlice d 34 74)) = true
          then some ("0x" ++ jsSlice d 34 74)
        else if (decide (strLower (jsSlice d 0 10) = "0x23b872dd") &&
            decide (138 ≤ d.length) && isAddr ("0x" ++ jsSlice d 98 138)) = true
          then some ("0x" ++ jsSlice d 98 138)
        else none) = some r ↔ _
    by_cases hguard : (!jsStrTruthy (some d) || decide (d.length < 10)) = true
    · rw [if_pos hguard]
      have hlen : d.length < 10 := by
        simp only [Bool.or_eq_true] at hguard
        rcases hguard with h | h
        · have he : d = "" := by
            simpa [jsStrTruthy] using h
          rw [he]
          decide
        · exact of_decide_eq_true h
      simp only [Option.some.injEq]
      constructor
      · intro hc
        cases hc
      · rintro ⟨d1, hd1, hdis⟩
        obtain rfl := hd1
        rcases hdis with ⟨_, hl, _, _⟩ | ⟨_, hl, _, _⟩ <;> omega
    · rw [if_neg hguard]
      split
      · next hA =>
          simp only [Bool.and_eq_true] at hA
          rcases hA with ⟨⟨hsel, hlen⟩, hA3⟩
          simp only [Option.some.injEq]
          constructor
          · intro hr
            refine ⟨d, rfl, Or.inl ⟨of_decide_eq_true hsel,
              of_decide_eq_true hlen, hr.symm, ?_⟩⟩
            rw [← hr]
            exact hA3
          · rintro ⟨d1, hd1, hdis⟩
            obtain rfl := hd1
            rcases hdis with ⟨_, _, hr, _⟩ | ⟨hsel2, _, _, _⟩
            · exact hr.symm
            · rw [of_decide_eq_true hsel] at hsel2
              exact absurd hsel2 (by decide)
      · next hA =>
          split
          · next hB =>
              simp only [Bool.and_eq_true] at hB
              rcases hB with ⟨⟨hsel, hlen⟩, hB3⟩
              simp only [Option.some.injEq]
              constructor
              · intro hr
                refine ⟨d, rfl, Or.inr ⟨of_decide_eq_true hsel,
                  of_decide_eq_true hlen, hr.symm, ?_⟩⟩
                rw [← hr]
                exact hB3
              · rintro ⟨d1, hd1, hdis⟩
                obtain rfl := hd1
                rcases hdis with ⟨hsel2, _, _, _⟩ | ⟨_, _, hr, _⟩
                · rw [of_decide_eq_true hsel] at hsel2
                  exact absurd hsel2 (by decide)
                · exact hr.symm
          · next hB =>
              simp only [Option.some.injEq]
              constructor
              · intro hc
                cases hc
              · rintro ⟨d1, hd1, hdis⟩
                obtain rfl := hd1
                rcases hdis with ⟨hsel, hl, hr, hv⟩ | ⟨hsel, hl, hr, hv⟩
                · refine absurd ?_ hA
                  simp only [Bool.and_eq_true, decide_eq_true_eq]
                  exact ⟨⟨hsel, hl⟩, by rw [← hr]; exact hv⟩
                · refine absurd ?_ hB
                  simp only [Bool.and_eq_true, decide_eq_true_eq]
                  exact ⟨⟨hsel, hl⟩, by rw [← hr]; exact hv⟩

/-- Witness for the amended C2: the transfer branch fires on concrete
calldata whose recipient slot validates. -/
theorem extract_recipient_amended_witness :
    extractTransferRecipient isHexAddress (some shortTransferData) =
      some "0xf39fd6e51aad88f6f4ce6ab8827279cfffb92266" :=
  (extract_recipient_amended isHexAddress (some shortTransferData)
      "0xf39fd6e51aad88f6f4ce6ab8827279cfffb92266").mpr
    ⟨shortTransferData, rfl, Or.inl ⟨by rfl, by decide, by rfl, by rfl⟩⟩

/-- C10: the account-model fork client's `isConnected` resolves to
true when `connect()` was never called (null provider: the
optional-chained probe evaluates to undefined instead of raising), and
resolves to false exactly when a connected provider's block-number
read throws — unlike the runtime-module client, which returns false on
a null API. -/
theorem health_probe_null_asymmetry :
    anvilIsConnected none = true ∧
    chopsticksIsConnected none = false ∧
    (∀ p : Option (Except String Nat),
      anvilIsConnected p = false ↔ ∃ e, p = some (Except.error e)) ∧
    (∀ a : Option (Except String Unit),
      chopsticksIsConnected a = true ↔ ∃ u, a = some (Except.ok u)) := by
  refine ⟨rfl, rfl, ?_, ?_⟩
  · intro p
    rcases p with _ | r
    · simp [anvilIsConnected]
    · rcases r with e | n <;> simp [anvilIsConnected]
  · intro a
    rcases a with _ | r
    · simp [chopsticksIsConnected]
    · rcases r with e | u <;> simp [chopsticksIsConnected]

theorem sAA_cons2 (x y : DecodedEventA) (r : List DecodedEventA) :
    sortedAscByIdx (x :: y :: r) =
      (decide (x.logIndex ≤ y.logIndex) && sortedAscByIdx (y :: r)) := rfl

theorem sSA_cons2 (x y : DecodedEventA) (r : List DecodedEventA) :
    strictAscByIdx (x :: y :: r) =
      (decide (x.logIndex < y.logIndex) && strictAscByIdx (y :: r)) := rfl

theorem sorted_insertByIdx (e : DecodedEventA) :
    ∀ l, sortedAscByIdx l = true →
      sortedAscByIdx (insertByIdx e l) = true := by
  intro l
  induction l with
  | nil => intro _; rfl
  | cons x xs ih =>
      intro hs
      show sortedAscByIdx (if e.logIndex ≤ x.logIndex then e :: x :: xs
        else x :: insertByIdx e xs) = true
      by_cases hc : e.logIndex ≤ x.logIndex
      · rw [if_pos hc, sAA_cons2]
        simp [hc, hs]
      · rw [if_neg hc]
        have hxe : x.logIndex ≤ e.logIndex := Nat.le_of_not_le hc
        cases xs with
        | nil =>
            show sortedAscByIdx (x :: [e]) = true
            rw [sAA_cons2]
            simp [hxe, sortedAscByIdx]
        | cons y ys =>
            rw [sAA_cons2] at hs
            simp only [Bool.and_eq_true, decide_eq_true_eq] at hs
            obtain ⟨hxy, hs2⟩ := hs
            have hrec := ih hs2
            show sortedAscByIdx (x :: (if e.logIndex ≤ y.logIndex
              then e :: y :: ys else y :: insertByIdx e ys)) = true
            by_cases hey : e.logIndex ≤ y.logIndex
            · rw [if_pos hey, sAA_cons2]
              simp only [Bool.and_eq_true, decide_eq_true_eq]
              refine ⟨hxe, ?_⟩
              rw [show insertByIdx e (y :: ys) = e :: y :: ys by
                show (if e.logIndex ≤ y.logIndex then _ else _) = _
                rw [if_pos hey]] at hrec
              exact hrec
            · rw [if_neg hey, sAA_cons2]
              simp only [Bool.and_eq_true, decide_eq_true_eq]
              refine ⟨hxy, ?_⟩
              rw [show insertByIdx e (y :: ys) = y :: insertByIdx e ys by
                show (if e.logIndex ≤ y.logIndex then _ else _) = _
                rw [if_neg hey]] at hrec
              exact hrec

theorem sortByIdx_sorted : ∀ l, sortedAscByIdx (sortByIdx l) = true := by
  intro l
  induction l with
  | nil => rfl
  | cons x xs ih => exact sorted_insertByIdx x (sortByIdx xs) ih

theorem insertByIdx_perm (e : DecodedEventA) :
    ∀ l, (insertByIdx e l).Perm (e :: l) := by
  intro l
  induction l with
  | nil => exact List.Perm.refl _
  | cons x xs ih =>
      show (if e.logIndex ≤ x.logIndex then e :: x :: xs
        else x :: insertByIdx e xs).Perm (e :: x :: xs)
      by_cases hc : e.logIndex ≤ x.logIndex
      · rw [if_pos hc]
      · rw [if_neg hc]
        exact (ih.cons x).trans (List.Perm.swap e x xs)

theorem sortByIdx_perm : ∀ l, (sortByIdx l).Perm l := by
  intro l
  induction l with
  | nil => exact List.Perm.refl _
  | cons x xs ih =>
      exact (insertByIdx_perm x (sortByIdx xs)).trans (ih.cons x)

theorem strict_of_sorted_nodup : ∀ l : List DecodedEventA,
    sortedAscByIdx l = true →
    (l.map (fun e => e.logIndex)).Nodup → strictAscByIdx l = true := by
  intro l
  induction l with
  | nil => intro _ _; rfl
  | cons x xs ih =>
      intro hs hn
      cases xs with
      | nil => rfl
      | cons y ys =>
          rw [sAA_cons2] at hs
          simp only [Bool.and_eq_true, decide_eq_true_eq] at hs
          rw [List.map_cons, List.nodup_cons] at hn
          rw [sSA_cons2]
          simp only [Bool.and_eq_true, decide_eq_true_eq]
          refine ⟨?_, ih hs.2 hn.2⟩
          rcases Nat.lt_or_ge x.logIndex y.logIndex with h | h
          · exact h
          · exfalso
            apply hn.1
            rw [List.map_cons, Nat.le_antisymm hs.1 h]
            exact List.mem_cons_self _ _

theorem decodeLog_logIndex {parse : EthLog → Option ParsedLog}
    {log : EthLog} {e : DecodedEventA}
    (h : decodeLog parse log = some e) : e.logIndex = log.index := by
  unfold decodeLog at h
  split at h
  · cases h
  · rcases Option.map_eq_some'.mp h with ⟨p, _, hp⟩
    rw [← hp]

theorem tryDecodeWith_logIndex {parse : EthLog → Option ParsedLog}
    {log : EthLog} {e : DecodedEventA}
    (h : tryDecodeWith parse log = some e) : e.logIndex = log.index := by
  rcases Option.map_eq_some'.mp h with ⟨p, _, hp⟩
  rw [← hp]

theorem filterMap_logIndex_sublist (f : EthLog → Option DecodedEventA)
    (hidx : ∀ log e, f log = some e → e.logIndex = log.index) :
    ∀ logs : List EthLog,
      ((logs.filterMap f).map (fun e => e.logIndex)).Sublist
        (logs.map EthLog.index) := by
  intro logs
  induction logs with
  | nil => simp
  | cons l ls ih =>
      rcases hf : f l with _ | e
      · rw [List.filterMap_cons_none hf, List.map_cons]
        exact ih.cons _
      · rw [List.filterMap_cons_some hf, List.map_cons, List.map_cons,
          hidx l e hf]
        exact ih.cons₂ _

/-- C9 counterexample: two identical decodable logs sharing log index
0 decode to two events with ordinal 0 — the returned array is not
strictly ascending and its ordinals are not unique. -/
theorem decoded_events_sorted_counterexample :
    (decodeLogs constParse [dupLog, dupLog]).map (fun e => e.logIndex)
      = [0, 0] ∧
    strictAscByIdx (decodeLogs constParse [dupLog, dupLog]) = false ∧
    ¬ ((decodeLogs constParse [dupLog, dupLog]).map
        (fun e => e.logIndex)).Nodup :=
  ⟨by rfl, by rfl, by decide⟩

/-- C9 amended: for every list of raw logs and every parse oracle,
`decodeLogs` and `decodeLogsWithAbi` return lists sorted ascending
(non-strictly) by log index; when the input logs carry pairwise
distinct indices the order is strictly ascending and the ordinals are
unique.  Duplicate input indices survive into the output, so the
claim's strictness only holds under that distinctness assumption. -/
theorem decoded_events_sorted (parseCustom parse : EthLog → Option ParsedLog)
    (logs : List EthLog) :
    sortedAscByIdx (decodeLogs parse logs) = true ∧
    sortedAscByIdx (decodeLogsWithAbi parseCustom parse logs) = true ∧
    ((logs.map EthLog.index).Nodup →
      strictAscByIdx (decodeLogs parse logs) = true ∧
      ((decodeLogs parse logs).map (fun e => e.logIndex)).Nodup ∧
      strictAscByIdx (decodeLogsWithAbi parseCustom parse logs) = true ∧
      ((decodeLogsWithAbi parseCustom parse logs).map
        (fun e => e.logIndex)).Nodup) := by
  have habi : ∀ log e, (fun log =>
      match tryDecodeWith parseCustom log with
      | some e => some e
      | none => decodeLog parse log) log = some e →
      e.logIndex = log.index := by
    intro log e h
    simp only at h
    rcases hc : tryDecodeWith parseCustom log with _ | e1 <;> rw [hc] at h
    · exact decodeLog_logIndex h
    · cases h
      exact tryDecodeWith_logIndex hc
  refine ⟨sortByIdx_sorted _, sortByIdx_sorted _, ?_⟩
  intro hnd
  have h1 : ((decodeLogs parse logs).map (fun e => e.logIndex)).Nodup := by
    show ((sortByIdx (logs.filterMap (decodeLog parse))).map
      (fun e => e.logIndex)).Nodup
    have hperm := (sortByIdx_perm (logs.filterMap (decodeLog parse))).map
      (fun e => e.logIndex)
    have hsub := filterMap_logIndex_sublist (decodeLog parse)
      (fun _ _ h => decodeLog_logIndex h) logs
    exact hperm.nodup_iff.mpr (hsub.nodup hnd)
  have h2 : ((decodeLogsWithAbi parseCustom parse logs).map
      (fun e => e.logIndex)).Nodup := by
    show ((sortByIdx (logs.filterMap (fun log =>
      match tryDecodeWith parseCustom log with
      | some e => some e
      | none => decodeLog parse log))).map (fun e => e.logIndex)).Nodup
    have hperm := (sortByIdx_perm (logs.filterMap (fun log =>
      match tryDecodeWith parseCustom log with
      | some e => some e
      | none => decodeLog parse log))).map (fun e => e.logIndex)
    have hsub := filterMap_logIndex_sublist (fun log =>
      match tryDecodeWith parseCustom log with
      | some e => some e
      | none => decodeLog parse log) habi logs
    exact hperm.nodup_iff.mpr (hsub.nodup hnd)
  exact ⟨strict_of_sorted_nodup _ (sortByIdx_sorted _) h1, h1,
    strict_of_sorted_nodup _ (sortByIdx_sorted _) h2, h2⟩

/-- Witness for the amended C9: two decodable logs given out of order
with distinct indices come back strictly sorted. -/
theorem decoded_events_sorted_witness :
    ([oneLog, dupLog].map EthLog.index).Nodup ∧
    strictAscByIdx (decodeLogs constParse [oneLog, dupLog]) = true :=
  ⟨by decide,
   ((decoded_events_sorted constParse constParse [oneLog, dupLog]).2.2
     (by decide)).1⟩

theorem foldl_alSet_lookup_notmem {K V : Type} [DecidableEq K] (g : K → V) :
    ∀ (l : List K) (m0 : List (K × V)) (a : K), a ∉ l →
      alGet? (l.foldl (fun m x => alSet m x (g x)) m0) a = alGet? m0 a := by
  intro l
  induction l with
  | nil => intro m0 a _; rfl
  | cons x xs ih =>
      intro m0 a ha
      rw [List.foldl_cons]
      rw [ih (alSet m0 x (g x)) a (fun h => ha (List.mem_cons_of_mem x h))]
      exact alGet?_alSet_ne m0 x a (g x)
        (fun h => ha (h ▸ List.mem_cons_self x xs))

theorem foldl_alSet_lookup {K V : Type} [DecidableEq K] (g : K → V) :
    ∀ (l : List K) (m0 : List (K × V)) (a : K), a ∈ l →
      alGet? (l.foldl (fun m x => alSet m x (g x)) m0) a = some (g a) := by
  intro l
  induction l with
  | nil => intro m0 a ha; cases ha
  | cons x xs ih =>
      intro m0 a ha
      rw [List.foldl_cons]
      by_cases hx : a ∈ xs
      · exact ih (alSet m0 x (g x)) a hx
      · have hax : a = x := by
          rcases List.mem_cons.mp ha with h | h
          · exact h
          · exact absurd h hx
        subst hax
        rw [foldl_alSet_lookup_notmem g xs (alSet m0 a (g a)) a hx]
        exact alGet?_alSet_self m0 a (g a)

theorem assetEntriesW_true
    (assetAcct : Nat → String → Except String (Option String))
    (address : String) (assetIds : List Nat) :
    assetEntriesW assetAcct true address assetIds =
      assetIds.foldl (fun m id =>
        alSet m id (assetValueW assetAcct address id)) [] := by
  unfold assetEntriesW
  congr 1
  funext m assetId
  simp only [if_true]
  rcases h : assetAcct assetId address with e | ob
  · simp [assetValueW, h]
  · rcases ob with _ | bal
    · simp [assetValueW, h]
    · rcases hj : jsBigInt bal with _ | b <;> simp [assetValueW, h, hj]

/-- C7 counterexample: the kind-A snapshotter DOES raise when a native
balance read fails — there is no try/catch around
`provider.getBalance`, so the requested address never appears and the
whole capture aborts. -/
theorem snapshotter_never_raises_counterexample :
    captureBalancesA natBalBoom (fun _ _ => 0) ["0xdead"] [] =
      Except.error "missing trie node" := by rfl

/-- C7 amended: the KIND-B snapshotter never raises for a requested
address — it is a total function, every requested address appears in
the returned map, an address whose account read (or native-field
parse) fails is stored with the zero snapshot, and, when the assets
pallet is available, a per-asset read failure or a missing asset
account yields a 0 balance for that asset.  The kind-A snapshotter
swallows per-token failures (its token oracle is total) but propagates
native-read failures, per the counterexample. -/
theorem snapshotter_amended (acct : String → Except String WAccountData)
    (assetsPallet : Bool)
    (assetAcct : Nat → String → Except String (Option String))
    (addresses : List String) (assetIds : List Nat) :
    (∀ address ∈ addresses,
       alGet? (captureBalancesW acct assetsPallet assetAcct addresses
         assetIds) address =
         some (captureResultW acct assetsPallet assetAcct assetIds
           address)) ∧
    (∀ address e, acct address = Except.error e →
       captureResultW acct assetsPallet assetAcct assetIds address =
         zeroSnapW) ∧
    (∀ address snap,
       captureOneW acct true assetAcct assetIds address = Except.ok snap →
       ∀ assetId ∈ assetIds,
         (assetAcct assetId address = Except.ok none ∨
           (∃ e, assetAcct assetId address = Except.error e)) →
         alGet? snap.assets assetId = some 0) := by
  refine ⟨?_, ?_, ?_⟩
  · intro address ha
    exact foldl_alSet_lookup
      (captureResultW acct assetsPallet assetAcct assetIds) addresses []
      address ha
  · intro address e he
    unfold captureResultW captureOneW
    rw [he]
  · intro address snap hone assetId hid hmiss
    unfold captureOneW at hone
    split at hone
    · cases hone
    split at hone
    · cases hone
    split at hone
    · cases hone
    split at hone
    · cases hone
    simp only [Except.ok.injEq] at hone
    subst hone
    show alGet? (assetEntriesW assetAcct true address assetIds) assetId =
      some 0
    rw [assetEntriesW_true assetAcct address assetIds]
    rw [foldl_alSet_lookup (assetValueW assetAcct address) assetIds []
      assetId hid]
    rcases hmiss with hm | ⟨e, hm⟩ <;>
      simp [assetValueW, hm]

/-- Witness for the amended C7: a failing account read stores the zero
snapshot for bob while alice's read succeeds. -/
theorem snapshotter_amended_witness :
    alGet? (captureBalancesW acct0 true assetAcct0 ["alice", "bob"]
      [1, 2, 3]) "bob" =
      some (captureResultW acct0 true assetAcct0 [1, 2, 3] "bob") ∧
    captureResultW acct0 true assetAcct0 [1, 2, 3] "bob" = zeroSnapW ∧
    captureResultW acct0 true assetAcct0 [1, 2, 3] "alice" =
      { native := { free := 100, reserved := 5, frozen := 0 }
        assets := [(1, 42), (2, 0), (3, 0)] } :=
  ⟨(snapshotter_amended acct0 true assetAcct0 ["alice", "bob"]
      [1, 2, 3]).1 "bob" (by decide), by rfl, by rfl⟩

theorem fallbackResult_raw (o : ErrObj) : (fallbackResult o).raw = none := by
  unfold fallbackResult
  split_ifs <;> rfl

theorem decodePanic_raw (oracle : AbiOracle) (data : String) :
    (decodePanic oracle data).raw = some data := by
  unfold decodePanic
  rcases oracle.decUint256 ("0x" ++ jsSliceFrom data 10) with _ | code <;> rfl

theorem decodeRevertReason_raw (oracle : AbiOracle) (data : String) :
    (decodeRevertReason oracle data).raw = some data := by
  unfold decodeRevertReason
  rcases oracle.decString ("0x" ++ jsSliceFrom data 10) with _ | reason <;> rfl

theorem decodeCustomError_eq_none {oracle : AbiOracle} {sel data : String}
    (h : (alGet? CUSTOM_ERRORS sel).isSome = false) :
    decodeCustomError oracle sel data = none := by
  unfold decodeCustomError
  rcases hg : alGet? CUSTOM_ERRORS sel with _ | sig
  · rfl
  · rw [hg] at h; cases h

theorem decodeCustomError_isSome {oracle : AbiOracle} {sel data : String}
    {d : DecodedError} (h : decodeCustomError oracle sel data = some d) :
    (alGet? CUSTOM_ERRORS sel).isSome = true := by
  unfold decodeCustomError at h
  rcases hg : alGet? CUSTOM_ERRORS sel with _ | sig <;> simp only [hg] at h
  · cases h
  · rfl

theorem decodeCustomError_none {oracle : AbiOracle} {sel data : String}
    (h : decodeCustomError oracle sel data = none) :
    (alGet? CUSTOM_ERRORS sel).isSome = false := by
  unfold decodeCustomError at h
  rcases hg : alGet? CUSTOM_ERRORS sel with _ | sig <;> simp only [hg] at h
  · rfl
  · rcases hp : oracle.parseCustomArgs sig data with _ | args <;>
      simp only [hp] at h <;> cases h

theorem decodeCustomError_raw {oracle : AbiOracle} {sel data : String}
    {d : DecodedError} (h : decodeCustomError oracle sel data = some d) :
    d.raw = some data := by
  unfold decodeCustomError at h
  rcases hg : alGet? CUSTOM_ERRORS sel with _ | sig <;> simp only [hg] at h
  · cases h
  · rcases hp : oracle.parseCustomArgs sig data with _ | args <;>
      simp only [hp, Option.some.injEq] at h <;> rw [← h]

/-- C8 counterexample: decodeEVMError is not total — a null (or
undefined) input raises a TypeError inside extractErrorData — and an
input that carries a raw hex payload whose selector is unrecognised
falls through to the fallback with NO raw field. -/
theorem evm_error_decoder_counterexample :
    (decodeEVMError oracle0 ErrInput.nullish).isOk = false ∧
    decodeEVMError oracle0 (ErrInput.obj { data := some "0xdeadbeef00" }) =
      Except.ok { type := "unknown", message := "Unknown error occurred",
                  raw := none } :=
  ⟨rfl, rfl⟩

/-- C8 amended: for every non-nullish input the decoder returns a
tagged record (nullish inputs raise); when no richer decoding applies
— no extracted payload, a payload shorter than 10 characters, or an
unrecognised selector — the result is the fallback in the claimed
order (reason, then cleaned info.error.message, then cleaned message,
then the fixed unknown message), which never carries `raw`; and `raw`
is populated exactly when the extracted payload is at least 10
characters long with a recognised (panic, revert-reason, or known
custom) selector. -/
theorem evm_error_decoder_amended (oracle : AbiOracle) :
    (∀ s, decodeEVMError oracle (ErrInput.str s) =
      Except.ok { type := "unknown", message := "Unknown error occurred",
                  raw := none }) ∧
    (∀ o : ErrObj, ∃ r,
      decodeEVMError oracle (ErrInput.obj o) = Except.ok r) ∧
    (∀ o : ErrObj,
      (match extractedData o with
       | some data => data.length < 10 ∨ recognisedSelector data = false
       | none => True) →
      decodeEVMError oracle (ErrInput.obj o) =
        Except.ok (fallbackResult o)) ∧
    (∀ o r, decodeEVMError oracle (ErrInput.obj o) = Except.ok r →
      (r.raw.isSome = true ↔ ∃ data, extractedData o = some data ∧
        10 ≤ data.length ∧ recognisedSelector data = true)) := by
  have hred : ∀ o : ErrObj, decodeEVMError oracle (ErrInput.obj o) =
      (match extractedData o with
       | some data =>
          if 10 ≤ data.length then
            if strLower (jsSlice data 0 10) = "0x4e487b71" then
              Except.ok (decodePanic oracle data)
            else if strLower (jsSlice data 0 10) = "0x08c379a0" then
              Except.ok (decodeRevertReason oracle data)
            else
              match decodeCustomError oracle
                  (strLower (jsSlice data 0 10)) data with
              | some d => Except.ok d
              | none => Except.ok (fallbackResult o)
          else Except.ok (fallbackResult o)
       | none => Except.ok (fallbackResult o)) := fun o => rfl
  refine ⟨fun s => rfl, ?_, ?_, ?_⟩
  · intro o
    rw [hred o]
    rcases hd : extractedData o with _ | data <;> simp only [hd]
    · exact ⟨_, rfl⟩
    · by_cases hl : 10 ≤ data.length
      · rw [if_pos hl]
        by_cases h1 : strLower (jsSlice data 0 10) = "0x4e487b71"
        · rw [if_pos h1]; exact ⟨_, rfl⟩
        · rw [if_neg h1]
          by_cases h2 : strLower (jsSlice data 0 10) = "0x08c379a0"
          · rw [if_pos h2]; exact ⟨_, rfl⟩
          · rw [if_neg h2]
            rcases hc : decodeCustomError oracle
                (strLower (jsSlice data 0 10)) data with _ | d <;>
              simp only [hc]
            · exact ⟨_, rfl⟩
            · exact ⟨_, rfl⟩
      · rw [if_neg hl]; exact ⟨_, rfl⟩
  · intro o hcond
    rw [hred o]
    rcases hd : extractedData o with _ | data
    · simp only [hd]
    · simp only [hd] at hcond ⊢
      rcases hcond with hl | hrec
      · rw [if_neg (by omega)]
      · have hl2 := hrec
        unfold recognisedSelector at hl2
        simp only [Bool.or_eq_false_iff, decide_eq_false_iff_not] at hl2
        obtain ⟨⟨h1, h2⟩, h3⟩ := hl2
        by_cases hl : 10 ≤ data.length
        · rw [if_pos hl, if_neg h1, if_neg h2, decodeCustomError_eq_none h3]
        · rw [if_neg hl]
  · intro o r hr
    rw [hred o] at hr
    rcases hd : extractedData o with _ | data <;> simp only [hd] at hr
    · simp only [Except.ok.injEq] at hr
      subst hr
      rw [fallbackResult_raw]
      simp
    · by_cases hl : 10 ≤ data.length
      · rw [if_pos hl] at hr
        by_cases h1 : strLower (jsSlice data 0 10) = "0x4e487b71"
        · rw [if_pos h1] at hr
          simp only [Except.ok.injEq] at hr
          subst hr
          rw [decodePanic_raw]
          simp only [Option.isSome_some, eq_self_iff_true, true_iff]
          exact ⟨data, rfl, hl, by
            unfold recognisedSelector
            simp [h1]⟩
        · rw [if_neg h1] at hr
          by_cases h2 : strLower (jsSlice data 0 10) = "0x08c379a0"
          · rw [if_pos h2] at hr
            simp only [Except.ok.injEq] at hr
            subst hr
            rw [decodeRevertReason_raw]
            simp only [Option.isSome_some, eq_self_iff_true, true_iff]
            exact ⟨data, rfl, hl, by
              unfold recognisedSelector
              simp [h2]⟩
          · rw [if_neg h2] at hr
            rcases hc : decodeCustomError oracle
                (strLower (jsSlice data 0 10)) data with _ | d <;>
              simp only [hc] at hr
            · simp only [Except.ok.injEq] at hr
              subst hr
              rw [fallbackResult_raw]
              simp only [Option.isSome_none, Bool.false_eq_true, false_iff]
              rintro ⟨data1, hdata1, _, hrec⟩
              obtain rfl := Option.some.inj hdata1
              unfold recognisedSelector at hrec
              simp only [Bool.or_eq_true, decide_eq_true_eq] at hrec
              rcases hrec with (h | h) | h
              · exact h1 h
              · exact h2 h
              · rw [decodeCustomError_none hc] at h
                cases h
            · simp only [Except.ok.injEq] at hr
              subst hr
              rw [decodeCustomError_raw hc]
              simp only [Option.isSome_some, eq_self_iff_true, true_iff]
              exact ⟨data, rfl, hl, by
                unfold recognisedSelector
                simp [decodeCustomError_isSome hc]⟩
      · rw [if_neg hl] at hr
        simp only [Except.ok.injEq] at hr
        subst hr
        rw [fallbackResult_raw]
        simp only [Option.isSome_none, Bool.false_eq_true, false_iff]
        rintro ⟨data1, hdata1, hlen1, _⟩
        obtain rfl := Option.some.inj hdata1
        exact hl hlen1

/-- Witness for the amended C8: an input with only a message field
falls through the whole chain to the cleaned-message fallback. -/
theorem evm_error_decoder_amended_witness :
    decodeEVMError oracle0 (ErrInput.obj { message := some "Error: boom " }) =
      Except.ok (fallbackResult { message := some "Error: boom " }) ∧
    fallbackResult { message := some "Error: boom " } =
      { type := "unknown", message := "boom", raw := none } :=
  ⟨(evm_error_decoder_amended oracle0).2.2.1
     { message := some "Error: boom " } trivial, by rfl⟩

/-!
## Engine coherence lemmas (C3 / C4)
-/

theorem mkResponseA_coherent (s : Bool) (sc : AStateImpactReport)
    (ev : List DecodedEventA) (g : AGasReport) :
    ((mkResponseA s sc ev g).success = true →
      (mkResponseA s sc ev g).error = none) ∧
    ((mkResponseA s sc ev g).success = false →
      (mkResponseA s sc ev g).error.isSome = true) := by
  cases s <;> simp [mkResponseA]

theorem catchResponseA_coherent (oracle : AbiOracle) (sym : String)
    (req : ASimRequest) (e : String) :
    ((catchResponseA oracle sym req e).success = true →
      (catchResponseA oracle sym req e).error = none) ∧
    ((catchResponseA oracle sym req e).success = false →
      (catchResponseA oracle sym req e).error.isSome = true) := by
  simp [catchResponseA]

theorem tryBodyA_ok_coherent (w : WorldA) (parse : EthLog → Option ParsedLog)
    (isAddr : String → Bool) (req : ASimRequest) (r : ASimResponse)
    (h : tryBodyA w parse isAddr req = Except.ok r) :
    (r.success = true → r.error = none) ∧
    (r.success = false → r.error.isSome = true) := by
  unfold tryBodyA at h
  split at h
  · cases h
  · split at h
    · cases h
    · split at h
      · cases h
      · split at h
        · cases h
        · split at h
          · cases h
          · split at h
            · cases h
            · split at h
              · cases h
              · split at h
                · cases h
                · cases h
                  exact mkResponseA_coherent _ _ _ _

theorem tryAfterBuildB_ok_coherent (w : WorldB) (req : WRequest)
    (sym : String) (dec : Nat) (recipient : Option String) (r : WResponse)
    (h : tryAfterBuildB w req sym dec recipient = Except.ok r) :
    (r.success = true → r.error = none) ∧
    (r.success = false → r.error.isSome = true) := by
  unfold tryAfterBuildB at h
  split at h
  · cases h
  · split at h
    · cases h
    · split at h
      · cases h
      · split at h
        · cases h
        · split at h
          · cases h
          · split at h
            · cases h
            · split at h
              · -- ExtrinsicFailed branch
                split at h
                · cases h
                · split at h
                  · cases h
                  · cases h
                    simp
              · -- success branch
                split at h
                · cases h
                · split at h
                  · cases h
                  · split at h
                    · cases h
                    · cases h
                      simp

theorem tryBodyB_ok_coherent (w : WorldB) (req : WRequest) (sym : String)
    (dec : Nat) (r : WResponse)
    (h : tryBodyB w req sym dec = Except.ok r) :
    (r.success = true → r.error = none) ∧
    (r.success = false → r.error.isSome = true) := by
  unfold tryBodyB at h
  split at h
  · -- rawHex
    split at h
    · cases h
    · exact tryAfterBuildB_ok_coherent _ _ _ _ _ _ h
  · -- call
    split at h
    · -- pallet known
      split at h
      · cases h
      · exact tryAfterBuildB_ok_coherent _ _ _ _ _ _ h
    · -- unknown extrinsic: explicit record
      cases h
      simp

/-- C3: counterexample by evaluation — code bug.  In the C3 world the
address-expansion pass discovers new addresses and the mid-algorithm
revert reports failure, so the engine throws its FATAL revert error;
but the engine's own catch converts that throw into a NORMAL
`success=false` SimulationResponse, and since the finally's last-resort
reset succeeds, `executeSimulation` RETURNS that normal response
instead of raising — contradicting the claim that the engine must
raise and must not return a normal SimulationResponse. -/
theorem failed_midrevert_swallowed :
    executeSimulation wC3 parseC3 isHexAddress oracle0 reqC3 =
      Except.ok (catchResponseA oracle0 "GLMR" reqC3 fatalMidMsg) ∧
    (catchResponseA oracle0 "GLMR" reqC3 fatalMidMsg).success = false ∧
    (catchResponseA oracle0 "GLMR" reqC3 fatalMidMsg).error =
      some { type := "unknown", message := fatalMidMsg, raw := none } :=
  ⟨rfl, rfl, rfl⟩

/-- C4: every response either engine returns normally satisfies the
invariant `success=true → error absent` and `success=false → error
present`, over all worlds of external outcomes and requests. -/
theorem response_success_error_coherence :
    (∀ (w : WorldA) (parse : EthLog → Option ParsedLog)
        (isAddr : String → Bool) (oracle : AbiOracle) (req : ASimRequest)
        (r : ASimResponse),
      executeSimulation w parse isAddr oracle req = Except.ok r →
        (r.success = true → r.error = none) ∧
        (r.success = false → r.error.isSome = true)) ∧
    (∀ (w : WorldB) (req : WRequest) (r : WResponse),
      executeWasmSimulation w req = Except.ok r →
        (r.success = true → r.error = none) ∧
        (r.success = false → r.error.isSome = true)) := by
  constructor
  · intro w parse isAddr oracle req r h
    unfold executeSimulation at h
    split at h
    · cases h
    · split at h
      · rename_i r0 heq
        split at h
        · cases h
        · cases h
          exact tryBodyA_ok_coherent _ _ _ _ _ heq
      · split at h
        · cases h
        · cases h
          exact catchResponseA_coherent _ _ _ _
  · intro w req r h
    unfold executeWasmSimulation at h
    split at h
    · cases h
    · split at h
      · cases h
      · split at h
        · rename_i r0 heq
          cases h
          exact tryBodyB_ok_coherent _ _ _ _ _ heq
        · split at h
          · cases h
          · cases h

/-- Closed instantiation of the C4 coherence theorem at concrete runs
of both engines (kind A through its catch path, kind B through its
unknown-extrinsic early return). -/
theorem response_success_error_coherence_witness :
    ((respA0.success = true → respA0.error = none) ∧
      (respA0.success = false → respA0.error.isSome = true)) ∧
    ((respB0.success = true → respB0.error = none) ∧
      (respB0.success = false → respB0.error.isSome = true)) :=
  ⟨response_success_error_coherence.1 wA0 (fun _ => none) isHexAddress
      oracle0 reqA0 respA0 rfl,
    response_success_error_coherence.2 wB0 reqB0 respB0 rfl⟩

end TxSim
